import Mathlib

/-!
# rgeo: line strings of the GEOS wrapper (`ext/geos_c_impl/line_string.c`)

A shallow embedding of the line-string constructors and queries of the GEOS
C extension, and theorems about them.

* C `double` values are IEEE 754 binary64 bit patterns; the only floating-point
  operation the file performs on them is `==`, embedded as `Double.ceq`.
* The geometry engine (GEOS) stores coordinate sequences; here a sequence is a
  list of coordinates. Every engine call that can report failure consults the
  context's `fails` oracle, so each theorem holds for an engine failing wherever
  it likes, unless the theorem says which calls succeed.
* `unsigned int` arithmetic on the Ruby array length and on buffer indices is
  taken modulo `2 ^ 32`.
-/

namespace RGeo

/-! ## C doubles -/

/-- A C `double`: the IEEE 754 binary64 bit pattern, read modulo `2 ^ 64`. -/
structure Double where
  bits : Nat
deriving DecidableEq, Repr

namespace Double

/-- The 11-bit biased exponent field. -/
def exponent (d : Double) : Nat := d.bits / 2 ^ 52 % 2 ^ 11

/-- The 52-bit fraction field. -/
def fraction (d : Double) : Nat := d.bits % 2 ^ 52

/-- Not-a-number: exponent all ones and a non-zero fraction. -/
def isNaN (d : Double) : Bool := d.exponent == 2047 && d.fraction != 0

/-- Positive or negative zero: everything but the sign bit is zero. -/
def isZero (d : Double) : Bool := d.bits % 2 ^ 63 == 0

/-- C `a == b` on doubles: false when either side is NaN, true for two zeros of
any sign, and otherwise equality of the bit patterns. -/
def ceq (a b : Double) : Bool :=
  !a.isNaN && !b.isNaN && ((a.isZero && b.isZero) || a.bits % 2 ^ 64 == b.bits % 2 ^ 64)

/-- The double `0` (the C literal `0` or `0.0` converted to `double`). -/
def zero : Double := ⟨0⟩

/-- The double `-1.0`. -/
def minusOne : Double := ⟨0xBFF0000000000000⟩

/-- A quiet NaN (`Float::NAN` in Ruby). -/
def nan : Double := ⟨0x7FF8000000000000⟩

/-- The double of a small non-negative integer `0`, `1`, `2`, `3`, `4` (others map to the
bit pattern of `1.0`); used to write concrete inputs. -/
def ofSmall : Nat → Double
  | 0 => ⟨0⟩
  | 1 => ⟨0x3FF0000000000000⟩
  | 2 => ⟨0x4000000000000000⟩
  | 3 => ⟨0x4008000000000000⟩
  | 4 => ⟨0x4010000000000000⟩
  | _ => ⟨0x3FF0000000000000⟩

end Double

/-! ## The geometry engine -/

/-- One coordinate of an engine coordinate sequence; the engine always keeps
three channels (`GEOSCoordSeq_create_r(context, n, 3)`). -/
structure Coord where
  x : Double
  y : Double
  z : Double
deriving DecidableEq, Repr

/-- A `GEOSCoordSequence`: the stored coordinates, in index order. -/
abbrev GEOSCoordSequence := List Coord

/-- The kind of engine geometry a sequence is wrapped in. -/
inductive GeomKind where
  | point
  | lineString
  | linearRing
deriving DecidableEq, Repr

/-- A `GEOSGeometry` of the kinds this file handles: a kind and its coordinate sequence. -/
structure GEOSGeometry where
  kind : GeomKind
  coordSeq : GEOSCoordSequence
deriving DecidableEq, Repr

/-- The engine calls made by `line_string.c` that can report failure. -/
inductive EngineCall where
  | length (g : GEOSGeometry)
  | getNumCoordinates (g : GEOSGeometry)
  | getCoordSeq (g : GEOSGeometry)
  | getSize (cs : GEOSCoordSequence)
  | getX (cs : GEOSCoordSequence) (i : Nat)
  | getY (cs : GEOSCoordSequence) (i : Nat)
  | getZ (cs : GEOSCoordSequence) (i : Nat)
  | coordSeqCreate (size : Nat) (dims : Nat)
  | coordSeqClone (cs : GEOSCoordSequence)
  | createLineString (cs : GEOSCoordSequence)
  | createLinearRing (cs : GEOSCoordSequence)
  | project (g : GEOSGeometry) (p : Option GEOSGeometry)
  | isRing (g : GEOSGeometry)
deriving DecidableEq, Repr

/-- A `GEOSContextHandle_t`: which calls fail inside the engine, and the values of
the numeric algorithms the engine supplies. -/
structure GEOSContext where
  /-- The calls that report failure. -/
  fails : EngineCall → Bool
  /-- What a freshly created sequence holds at each position before it is set. -/
  blank : Coord
  /-- The value `GEOSLength_r` stores on success. -/
  lengthOf : GEOSGeometry → Double
  /-- The value `GEOSProject_r` returns on success. -/
  projectOf : GEOSGeometry → Option GEOSGeometry → Double
  /-- The value `GEOSisRing_r` returns on success: `0` or `1`. -/
  isRingOf : GEOSGeometry → Bool

/-- An engine in which no call fails. -/
def GEOSContext.reliable : GEOSContext where
  fails := fun _ => false
  blank := ⟨Double.zero, Double.zero, Double.nan⟩
  lengthOf := fun _ => Double.zero
  projectOf := fun _ _ => Double.zero
  isRingOf := fun _ => false

/-- `GEOSGetNumCoordinates_r`: the number of coordinates, or `-1` on failure. -/
def GEOSGetNumCoordinates_r (context : GEOSContext) (g : GEOSGeometry) : Int :=
  if context.fails (.getNumCoordinates g) then -1 else (g.coordSeq.length : Int)

/-- `GEOSGeom_getCoordSeq_r`: the geometry's sequence, or `NULL` on failure. -/
def GEOSGeom_getCoordSeq_r (context : GEOSContext) (g : GEOSGeometry) :
    Option GEOSCoordSequence :=
  if context.fails (.getCoordSeq g) then none else some g.coordSeq

/-- `GEOSCoordSeq_getSize_r`: the size on success. -/
def GEOSCoordSeq_getSize_r (context : GEOSContext) (cs : GEOSCoordSequence) : Option Nat :=
  if context.fails (.getSize cs) then none else some cs.length

/-- `GEOSCoordSeq_getX_r`: fails on an index out of range or when the engine says so. -/
def GEOSCoordSeq_getX_r (context : GEOSContext) (cs : GEOSCoordSequence) (i : Nat) :
    Option Double :=
  if context.fails (.getX cs i) then none else (cs[i]?).map Coord.x

/-- `GEOSCoordSeq_getY_r`. -/
def GEOSCoordSeq_getY_r (context : GEOSContext) (cs : GEOSCoordSequence) (i : Nat) :
    Option Double :=
  if context.fails (.getY cs i) then none else (cs[i]?).map Coord.y

/-- `GEOSCoordSeq_getZ_r`. -/
def GEOSCoordSeq_getZ_r (context : GEOSContext) (cs : GEOSCoordSequence) (i : Nat) :
    Option Double :=
  if context.fails (.getZ cs i) then none else (cs[i]?).map Coord.z

/-- `GEOSCoordSeq_create_r(context, size, dims)`: a fresh sequence of `size` positions. -/
def GEOSCoordSeq_create_r (context : GEOSContext) (size dims : Nat) :
    Option GEOSCoordSequence :=
  if context.fails (.coordSeqCreate size dims) then none
  else some (List.replicate size context.blank)

/-- `GEOSCoordSeq_setX_r`: stores `v` in the x channel of position `i` (nothing happens
out of range; the C code ignores the return value). -/
def GEOSCoordSeq_setX_r (cs : GEOSCoordSequence) (i : Nat) (v : Double) : GEOSCoordSequence :=
  match cs[i]? with
  | some c => cs.set i { c with x := v }
  | none => cs

/-- `GEOSCoordSeq_setY_r`. -/
def GEOSCoordSeq_setY_r (cs : GEOSCoordSequence) (i : Nat) (v : Double) : GEOSCoordSequence :=
  match cs[i]? with
  | some c => cs.set i { c with y := v }
  | none => cs

/-- `GEOSCoordSeq_setZ_r`. -/
def GEOSCoordSeq_setZ_r (cs : GEOSCoordSequence) (i : Nat) (v : Double) : GEOSCoordSequence :=
  match cs[i]? with
  | some c => cs.set i { c with z := v }
  | none => cs

/-- `GEOSCoordSeq_clone_r`: an independent sequence with the same values. -/
def GEOSCoordSeq_clone_r (context : GEOSContext) (cs : GEOSCoordSequence) :
    Option GEOSCoordSequence :=
  if context.fails (.coordSeqClone cs) then none else some cs

/-- `GEOSGeom_createLineString_r`. -/
def GEOSGeom_createLineString_r (context : GEOSContext) (cs : GEOSCoordSequence) :
    Option GEOSGeometry :=
  if context.fails (.createLineString cs) then none else some ⟨.lineString, cs⟩

/-- `GEOSGeom_createLinearRing_r`. -/
def GEOSGeom_createLinearRing_r (context : GEOSContext) (cs : GEOSCoordSequence) :
    Option GEOSGeometry :=
  if context.fails (.createLinearRing cs) then none else some ⟨.linearRing, cs⟩

/-- `GEOSLength_r(context, g, &len)`: the length on success (return value `1`). -/
def GEOSLength_r (context : GEOSContext) (g : GEOSGeometry) : Option Double :=
  if context.fails (.length g) then none else some (context.lengthOf g)

/-- `GEOSProject_r`: the location, or `-1.0` when the call fails. -/
def GEOSProject_r (context : GEOSContext) (g : GEOSGeometry) (p : Option GEOSGeometry) :
    Double :=
  if context.fails (.project g p) then Double.minusOne else context.projectOf g p

/-- `GEOSisRing_r`: `0`, `1`, or `2` when the call fails. -/
def GEOSisRing_r (context : GEOSContext) (g : GEOSGeometry) : Nat :=
  if context.fails (.isRing g) then 2 else if context.isRingOf g then 1 else 0

/-! ## Ruby values, factories and geometry objects -/

/-- The module and class objects of `globals.h` that this file mentions. -/
inductive RModule where
  | rgeo_feature_point_module
  | rgeo_feature_line_string_module
  | rgeo_feature_linear_ring_module
  | rgeo_feature_line_module
  | rgeo_geos_point_class
  | rgeo_geos_line_string_class
  | rgeo_geos_linear_ring_class
  | rgeo_geos_line_class
deriving DecidableEq, Repr

/-- A Ruby `VALUE`, as far as this file produces or inspects one. -/
inductive VALUE where
  | Qfalse
  | Qnil
  | Qtrue
  /-- A Float (`rb_float_new`, `DBL2NUM`). -/
  | float (d : Double)
  /-- An Integer (`INT2NUM`, or a caller's argument). -/
  | integer (n : Int)
  /-- A geometry object: its class, the identity of its factory and its engine geometry. -/
  | object (klass : RModule) (factory : Nat) (geom : Option GEOSGeometry)
  /-- Any other Ruby object. -/
  | other (id : Nat)
deriving DecidableEq, Repr

/-- Modelled from the spec: `RGEO_FACTORYFLAGS_SUPPORTS_Z_OR_M` of `factory.h` (not in src/),
the mask of the factory's dimensionality flags (z support `1`, measure support `2`). -/
def RGEO_FACTORYFLAGS_SUPPORTS_Z_OR_M : Nat := 3

/-- `RGeo_FactoryData`, with the identity of the Ruby factory object it belongs to. -/
structure RGeo_FactoryData where
  id : Nat
  flags : Nat
  geos_context : GEOSContext

/-- `RGeo_GeometryData` of a geometry object `self`, with the object's class. -/
structure RGeo_GeometryData where
  geos_context : GEOSContext
  geom : Option GEOSGeometry
  factory : RGeo_FactoryData
  klass : RModule

/-- `(char)(RGEO_FACTORY_DATA_PTR(factory)->flags & RGEO_FACTORYFLAGS_SUPPORTS_Z_OR_M)`,
tested for being non-zero. -/
def has_z_of (factory : RGeo_FactoryData) : Bool :=
  (factory.flags &&& RGEO_FACTORYFLAGS_SUPPORTS_Z_OR_M) % 256 != 0

/-- The collaborator `rgeo_convert_to_geos_geometry(factory, obj, type)` of `factory.c`
(not in src/): the engine geometry of `obj` cast to `type`, or `NULL`. It is a parameter
of every function that calls it. -/
abbrev Converter := RGeo_FactoryData → VALUE → RModule → Option GEOSGeometry

/-- A converter for concrete inputs: a geometry object of the factory whose engine
geometry is a point converts to that geometry, nothing else converts. -/
def Converter.points : Converter := fun factory obj _ =>
  match obj with
  | .object _ f (some g) => if f = factory.id ∧ g.kind = .point then some g else none
  | _ => none

/-- Modelled from the spec: `rgeo_wrap_geos_geometry` of `factory.c` (not in src/) wraps a
non-null engine geometry as an object of class `klass` owned by `factory`. -/
def rgeo_wrap_geos_geometry (factory : RGeo_FactoryData) (geom : GEOSGeometry)
    (klass : RModule) : VALUE :=
  .object klass factory.id (some geom)

/-- Modelled from the spec: `rgeo_create_geos_point` of `point.c` (not in src/) builds the
point object of `factory` with coordinate `(x, y, z)`. -/
def rgeo_create_geos_point (factory : RGeo_FactoryData) (x y z : Double) : VALUE :=
  rgeo_wrap_geos_geometry factory ⟨.point, [⟨x, y, z⟩]⟩ .rgeo_geos_point_class

/-! ## `coord_seq_from_array` -/

/-- Conversion to `unsigned int`. -/
def uint (n : Nat) : Nat := n % 2 ^ 32

/-- Read of `coords[k]` in the `double` buffer. -/
def rd (coords : List Double) (k : Nat) : Double := (coords[k]?).getD Double.zero

/-- `rb_ary_entry(array, i)`: `nil` out of range. -/
def rb_ary_entry (array : List VALUE) (i : Nat) : VALUE := (array[i]?).getD .Qnil

/-- The body of the first loop of `coord_seq_from_array` for index `i`: `none` when `good`
ends up `0` (the function then frees the buffer and returns `NULL`), else the buffer
with the entry's x, y and (with `has_z`) z written at `i*dims`, `i*dims+1`, `i*dims+2`. -/
def read_entry (convert : Converter) (factory : RGeo_FactoryData) (has_z : Bool) (dims : Nat)
    (array : List VALUE) (i : Nat) (coords : List Double) : Option (List Double) :=
  match convert factory (rb_ary_entry array i) .rgeo_feature_point_module with
  | none => none
  | some entry_geom =>
    match GEOSGeom_getCoordSeq_r factory.geos_context entry_geom with
    | none => none
    | some entry_cs =>
      match GEOSCoordSeq_getX_r factory.geos_context entry_cs 0 with
      | none => none
      | some x =>
        let coords := coords.set (uint (i * dims)) x
        match GEOSCoordSeq_getY_r factory.geos_context entry_cs 0 with
        | none => none
        | some y =>
          let coords := coords.set (uint (i * dims + 1)) y
          if has_z then
            match GEOSCoordSeq_getZ_r factory.geos_context entry_cs 0 with
            | some z => some (coords.set (uint (i * dims + 2)) z)
            | none => none
          else some coords

/-- The first loop, `for (i=0; i<len; ++i)`: `count` iterations of the body starting at
index `i`, stopping with `none` at the first entry that is not good. -/
def read_entries (convert : Converter) (factory : RGeo_FactoryData) (has_z : Bool) (dims : Nat)
    (array : List VALUE) : (count : Nat) → (i : Nat) → List Double → Option (List Double)
  | 0, _, coords => some coords
  | count + 1, i, coords =>
    match read_entry convert factory has_z dims array i coords with
    | none => none
    | some coords => read_entries convert factory has_z dims array count (uint (i + 1)) coords

/-- The second loop, `for (i=0; i<len; ++i)`: `count` iterations starting at index `i`,
each storing x, y and z (`has_z ? coords[i*dims+2] : 0`) at position `i`. -/
def store_coords (has_z : Bool) (dims : Nat) (coords : List Double) :
    (count : Nat) → (i : Nat) → GEOSCoordSequence → GEOSCoordSequence
  | 0, _, coord_seq => coord_seq
  | count + 1, i, coord_seq =>
    let coord_seq := GEOSCoordSeq_setX_r coord_seq i (rd coords (uint (i * dims)))
    let coord_seq := GEOSCoordSeq_setY_r coord_seq i (rd coords (uint (i * dims + 1)))
    let coord_seq := GEOSCoordSeq_setZ_r coord_seq i
      (if has_z then rd coords (uint (i * dims + 2)) else Double.zero)
    store_coords has_z dims coords count (uint (i + 1)) coord_seq

/-- The closure decision of `coord_seq_from_array` (lines 454 to 461): the value of `close`
after it. -/
def close_decision (len dims : Nat) (coords : List Double) (close : Bool) : Bool :=
  if len > 0 && close then
    if (rd coords 0).ceq (rd coords (uint ((len - 1) * dims)))
        && (rd coords 1).ceq (rd coords (uint ((len - 1) * dims + 1))) then false
    else close
  else false

/-- `coord_seq_from_array(factory, array, close)`: `none` is `NULL`. The buffer `coords`
is a list of `len == 0 ? 1 : len * dims` doubles (its uninitialised content is taken to
be zeros; a write out of its bounds is dropped). `ALLOC_N` raises instead of returning
`NULL`, so the test `!coords` has no branch here. The callers pass `0` or `1` for the
`char close`, here a `Bool`. -/
def coord_seq_from_array (convert : Converter) (factory : RGeo_FactoryData)
    (array : List VALUE) (close : Bool) : Option GEOSCoordSequence :=
  let len := uint array.length
  let has_z := has_z_of factory
  let dims := if has_z then 3 else 2
  let coords := List.replicate (if len == 0 then 1 else uint (len * dims)) Double.zero
  let context := factory.geos_context
  match read_entries convert factory has_z dims array len 0 coords with
  | none => none
  | some coords =>
    let close := close_decision len dims coords close
    match GEOSCoordSeq_create_r context (uint (len + close.toNat)) 3 with
    | none => none
    | some coord_seq =>
      let coord_seq := store_coords has_z dims coords len 0 coord_seq
      let coord_seq :=
        if close then
          let coord_seq := GEOSCoordSeq_setX_r coord_seq len (rd coords 0)
          let coord_seq := GEOSCoordSeq_setY_r coord_seq len (rd coords 1)
          GEOSCoordSeq_setZ_r coord_seq len (if has_z then rd coords 2 else Double.zero)
        else coord_seq
      some coord_seq

/-- What the first loop of `coord_seq_from_array` reads from one array entry: the point's
x, y and z (z is read only when the factory enables it, and is `0` here otherwise);
`none` when the entry does not convert or one of the required reads fails. -/
def entry_coord (convert : Converter) (factory : RGeo_FactoryData) (entry : VALUE) :
    Option Coord :=
  match convert factory entry .rgeo_feature_point_module with
  | none => none
  | some entry_geom =>
    match GEOSGeom_getCoordSeq_r factory.geos_context entry_geom with
    | none => none
    | some entry_cs =>
      match GEOSCoordSeq_getX_r factory.geos_context entry_cs 0,
            GEOSCoordSeq_getY_r factory.geos_context entry_cs 0 with
      | some x, some y =>
        if has_z_of factory then
          (GEOSCoordSeq_getZ_r factory.geos_context entry_cs 0).map (fun z => ⟨x, y, z⟩)
        else some ⟨x, y, Double.zero⟩
      | _, _ => none

/-- The number of buffer slots per point: `has_z ? 3 : 2`. -/
def dims_of (has_z : Bool) : Nat := if has_z then 3 else 2


/-- The C test `coords[0] == coords[(len-1)*dims] && coords[1] == coords[(len-1)*dims+1]`
on two coordinates: their x agree and their y agree under `==`; z takes no part. -/
def xy_ceq (a b : Coord) : Bool := a.x.ceq b.x && a.y.ceq b.y

/-- Whether `coord_seq_from_array` appends a closing coordinate to the points `P 0`, ...,
`P (n-1)`: closing is requested, there is a point, and the first and the last point do
not agree in x and y. -/
def closes (close : Bool) (n : Nat) (P : Nat → Coord) : Bool :=
  close && decide (0 < n) && !xy_ceq (P 0) (P (n - 1))

/-- The closure decision on a list of points: there is a first and a last point and
they do not agree in x and y under C `==`. -/
def needs_closing (pts : List Coord) : Bool :=
  match pts.head?, pts.getLast? with
  | some first, some last => !xy_ceq first last
  | _, _ => false

/-! ## Queries -/

/-- Conversion of an `int` to `unsigned int`. -/
def int_to_uint (n : Int) : Nat := (n % 2 ^ 32).toNat

/-- A coordinate read through a `GEOSCoordSequence*` that may be `NULL`: the read of a
`NULL` sequence fails. -/
def getX_of (context : GEOSContext) (cs : Option GEOSCoordSequence) (i : Nat) : Option Double :=
  cs.bind (fun cs => GEOSCoordSeq_getX_r context cs i)

/-- The y read through a `GEOSCoordSequence*` that may be `NULL`. -/
def getY_of (context : GEOSContext) (cs : Option GEOSCoordSequence) (i : Nat) : Option Double :=
  cs.bind (fun cs => GEOSCoordSeq_getY_r context cs i)

/-- `rgeo_is_geos_line_string_closed(context, geom)`. -/
def rgeo_is_geos_line_string_closed (context : GEOSContext) (geom : GEOSGeometry) : VALUE :=
  let n := int_to_uint (GEOSGetNumCoordinates_r context geom)
  if n > 0 then
    let coord_seq := GEOSGeom_getCoordSeq_r context geom
    match getX_of context coord_seq 0 with
    | none => .Qnil
    | some x1 =>
      match getX_of context coord_seq (n - 1) with
      | none => .Qnil
      | some x2 =>
        if x1.ceq x2 then
          match getY_of context coord_seq 0 with
          | none => .Qnil
          | some y1 =>
            match getY_of context coord_seq (n - 1) with
            | none => .Qnil
            | some y2 => if y1.ceq y2 then .Qtrue else .Qfalse
        else .Qfalse
  else .Qnil

/-- `method_line_string_is_closed(self)`. -/
def method_line_string_is_closed (self : RGeo_GeometryData) : VALUE :=
  match self.geom with
  | none => .Qnil
  | some self_geom => rgeo_is_geos_line_string_closed self.geos_context self_geom

/-- `method_line_string_length(self)`. -/
def method_line_string_length (self : RGeo_GeometryData) : VALUE :=
  match self.geom with
  | none => .Qnil
  | some self_geom =>
    match GEOSLength_r self.geos_context self_geom with
    | some len => .float len
    | none => .Qnil

/-- `method_line_string_num_points(self)`. -/
def method_line_string_num_points (self : RGeo_GeometryData) : VALUE :=
  match self.geom with
  | none => .Qnil
  | some self_geom => .integer (GEOSGetNumCoordinates_r self.geos_context self_geom)

/-- `method_line_string_is_ring(self)`. -/
def method_line_string_is_ring (self : RGeo_GeometryData) : VALUE :=
  match self.geom with
  | none => .Qnil
  | some self_geom =>
    let val := GEOSisRing_r self.geos_context self_geom
    if val = 0 then .Qfalse
    else if val = 1 then .Qtrue
    else .Qnil

/-- `method_line_string_project_point(self, point)`. The C test `point` on a `VALUE` is
non-zero for everything but `Qfalse`. -/
def method_line_string_project_point (convert : Converter) (self : RGeo_GeometryData)
    (point : VALUE) : VALUE :=
  match self.geom with
  | some self_geom =>
    if point ≠ .Qfalse then
      let geos_point := convert self.factory point .rgeo_geos_point_class
      let location := GEOSProject_r self.geos_context self_geom geos_point
      .float location
    else .Qnil
  | none => .Qnil

/-- `get_point_from_coordseq(self, coord_seq, i, has_z)`. -/
def get_point_from_coordseq (self : RGeo_GeometryData) (coord_seq : GEOSCoordSequence)
    (i : Nat) (has_z : Bool) : VALUE :=
  match GEOSCoordSeq_getX_r self.geos_context coord_seq i with
  | none => .Qnil
  | some x =>
    match GEOSCoordSeq_getY_r self.geos_context coord_seq i with
    | none => .Qnil
    | some y =>
      let z :=
        if has_z then
          match GEOSCoordSeq_getZ_r self.geos_context coord_seq i with
          | some z => z
          | none => Double.zero
        else Double.zero
      rgeo_create_geos_point self.factory x y z

/-- A Ruby exception raised through the Ruby C API. -/
inductive RubyException where
  | RangeError
deriving DecidableEq, Repr

/-- `NUM2INT` on a Ruby Integer: the value when it fits a C `int`, else `RangeError`. -/
def NUM2INT (n : Int) : Except RubyException Int :=
  if -2 ^ 31 ≤ n ∧ n < 2 ^ 31 then .ok n else .error .RangeError

/-- `method_line_string_point_n(self, n)` for a Ruby Integer `n`: the returned value, or
the exception `NUM2INT` raises. -/
def method_line_string_point_n (self : RGeo_GeometryData) (n : Int) :
    Except RubyException VALUE :=
  match self.geom with
  | none => .ok .Qnil
  | some self_geom =>
    match GEOSGeom_getCoordSeq_r self.geos_context self_geom with
    | none => .ok .Qnil
    | some coord_seq =>
      let has_z := has_z_of self.factory
      match NUM2INT n with
      | .error e => .error e
      | .ok si =>
        if si ≥ 0 then
          let i := int_to_uint si
          match GEOSCoordSeq_getSize_r self.geos_context coord_seq with
          | some size =>
            if i < size then .ok (get_point_from_coordseq self coord_seq i has_z)
            else .ok .Qnil
          | none => .ok .Qnil
        else .ok .Qnil

/-- `rb_ary_store(ary, i, v)`: stores at index `i`, first padding the array with `nil`
up to `i` when it is shorter. -/
def rb_ary_store (ary : List VALUE) (i : Nat) (v : VALUE) : List VALUE :=
  if i < ary.length then ary.set i v
  else ary ++ List.replicate (i - ary.length) .Qnil ++ [v]

/-- The loop of `method_line_string_points`: `count` iterations starting at index `i`. -/
def points_loop (self : RGeo_GeometryData) (coord_seq : GEOSCoordSequence) (has_z : Bool) :
    (count : Nat) → (i : Nat) → List VALUE → List VALUE
  | 0, _, result => result
  | count + 1, i, result =>
    let point := get_point_from_coordseq self coord_seq i has_z
    let result := if point ≠ .Qnil then rb_ary_store result i point else result
    points_loop self coord_seq has_z count (i + 1) result

/-- `method_line_string_points(self)`: `none` is `Qnil`, `some elems` the Ruby array
with the entries `elems` (`rb_ary_new2(size)` is the empty array). -/
def method_line_string_points (self : RGeo_GeometryData) : Option (List VALUE) :=
  match self.geom with
  | none => none
  | some self_geom =>
    match GEOSGeom_getCoordSeq_r self.geos_context self_geom with
    | none => none
    | some coord_seq =>
      let has_z := has_z_of self.factory
      match GEOSCoordSeq_getSize_r self.geos_context coord_seq with
      | some size => some (points_loop self coord_seq has_z size 0 [])
      | none => none

/-! ## Copying -/

/-- `impl_copy_from(klass, factory, original, subtype)`. -/
def impl_copy_from (klass : RModule) (factory : RGeo_FactoryData)
    (original : RGeo_GeometryData) (subtype : Nat) : VALUE :=
  match original.geom with
  | none => .Qnil
  | some original_geom =>
    let context := factory.geos_context
    let original_geom : Option GEOSGeometry :=
      if subtype = 1 ∧ GEOSGetNumCoordinates_r context original_geom ≠ 2 then none
      else some original_geom
    match original_geom with
    | none => .Qnil
    | some original_geom =>
      match GEOSGeom_getCoordSeq_r context original_geom with
      | none => .Qnil
      | some original_coord_seq =>
        match GEOSCoordSeq_clone_r context original_coord_seq with
        | none => .Qnil
        | some coord_seq =>
          match (if subtype = 2 then GEOSGeom_createLinearRing_r context coord_seq
                 else GEOSGeom_createLineString_r context coord_seq) with
          | none => .Qnil
          | some geom => rgeo_wrap_geos_geometry factory geom klass

/-- `cmethod_line_string_copy_from(klass, factory, original)`. -/
def cmethod_line_string_copy_from (klass : RModule) (factory : RGeo_FactoryData)
    (original : RGeo_GeometryData) : VALUE :=
  impl_copy_from klass factory original 0

/-- `cmethod_line_copy_from(klass, factory, original)`. -/
def cmethod_line_copy_from (klass : RModule) (factory : RGeo_FactoryData)
    (original : RGeo_GeometryData) : VALUE :=
  impl_copy_from klass factory original 1

/-- `cmethod_linear_ring_copy_from(klass, factory, original)`. -/
def cmethod_linear_ring_copy_from (klass : RModule) (factory : RGeo_FactoryData)
    (original : RGeo_GeometryData) : VALUE :=
  impl_copy_from klass factory original 2

/-- `cmethod_create_line_string(module, factory, array)`. -/
def cmethod_create_line_string (convert : Converter) (factory : RGeo_FactoryData)
    (array : List VALUE) : VALUE :=
  match coord_seq_from_array convert factory array false with
  | none => .Qnil
  | some coord_seq =>
    match GEOSGeom_createLineString_r factory.geos_context coord_seq with
    | none => .Qnil
    | some geom => rgeo_wrap_geos_geometry factory geom .rgeo_geos_line_string_class

/-- `cmethod_create_linear_ring(module, factory, array)`. -/
def cmethod_create_linear_ring (convert : Converter) (factory : RGeo_FactoryData)
    (array : List VALUE) : VALUE :=
  match coord_seq_from_array convert factory array true with
  | none => .Qnil
  | some coord_seq =>
    match GEOSGeom_createLinearRing_r factory.geos_context coord_seq with
    | none => .Qnil
    | some geom => rgeo_wrap_geos_geometry factory geom .rgeo_geos_linear_ring_class

/-- The engine reads made by `rgeo_is_geos_line_string_closed` on `geom` do not fail
inside the engine. -/
def closed_reads_succeed (context : GEOSContext) (geom : GEOSGeometry) : Prop :=
  context.fails (.getNumCoordinates geom) = false ∧
  context.fails (.getCoordSeq geom) = false ∧
  ∀ i, context.fails (.getX geom.coordSeq i) = false ∧
    context.fails (.getY geom.coordSeq i) = false

/-- The buffer after the body of the first loop of `coord_seq_from_array` has handled a
good entry with coordinate `c` at index `i`. -/
def written (has_z : Bool) (dims : Nat) (i : Nat) (c : Coord) (coords : List Double) :
    List Double :=
  let coords := (coords.set (uint (i * dims)) c.x).set (uint (i * dims + 1)) c.y
  if has_z then coords.set (uint (i * dims + 2)) c.z else coords

/-! ## Equality and hashing -/

/-- A factory without z support, on an engine where no call fails. -/
def factory_2d : RGeo_FactoryData := ⟨1, 0, GEOSContext.reliable⟩

/-- A factory with z support, on an engine where no call fails. -/
def factory_3d : RGeo_FactoryData := ⟨2, 1, GEOSContext.reliable⟩

/-- The point object `(x, y, z)` of the factory with identity `f`, for small integers. -/
def point_obj (f : Nat) (x y z : Nat) : VALUE :=
  .object .rgeo_geos_point_class f
    (some ⟨.point, [⟨Double.ofSmall x, Double.ofSmall y, Double.ofSmall z⟩]⟩)

/-- The coordinate `(x, y, z)` for small integers. -/
def coord_of (x y z : Nat) : Coord := ⟨Double.ofSmall x, Double.ofSmall y, Double.ofSmall z⟩

/-- The point object `(NaN, 0, 0)` of the factory with identity `f`. -/
def nan_point_obj (f : Nat) : VALUE :=
  .object .rgeo_geos_point_class f (some ⟨.point, [⟨Double.nan, Double.zero, Double.zero⟩]⟩)


/-- An engine in which every call fails. -/
def GEOSContext.failing : GEOSContext :=
  { GEOSContext.reliable with fails := fun _ => true }

/-- An engine in which only the x read at index `0` fails. -/
def GEOSContext.failing_first_x : GEOSContext :=
  { GEOSContext.reliable with
    fails := fun call => match call with
      | .getX _ 0 => true
      | _ => false }

/-! ## Lemmas: buffer and sequence updates -/

theorem uint_of_lt {n : Nat} (h : n < 2 ^ 32) : uint n = n := Nat.mod_eq_of_lt h

theorem rd_set_eq (coords : List Double) (k : Nat) (v : Double) (h : k < coords.length) :
    rd (coords.set k v) k = v := by
  simp [rd, List.getElem?_set, h]

theorem rd_set_ne (coords : List Double) (k m : Nat) (v : Double) (h : k ≠ m) :
    rd (coords.set k v) m = rd coords m := by
  simp [rd, List.getElem?_set, h]

theorem setX_length (cs : GEOSCoordSequence) (i : Nat) (v : Double) :
    (GEOSCoordSeq_setX_r cs i v).length = cs.length := by
  unfold GEOSCoordSeq_setX_r; split <;> simp

theorem setY_length (cs : GEOSCoordSequence) (i : Nat) (v : Double) :
    (GEOSCoordSeq_setY_r cs i v).length = cs.length := by
  unfold GEOSCoordSeq_setY_r; split <;> simp

theorem setZ_length (cs : GEOSCoordSequence) (i : Nat) (v : Double) :
    (GEOSCoordSeq_setZ_r cs i v).length = cs.length := by
  unfold GEOSCoordSeq_setZ_r; split <;> simp

theorem setX_getElem? (cs : GEOSCoordSequence) (i j : Nat) (v : Double) :
    (GEOSCoordSeq_setX_r cs i v)[j]? =
      if j = i then (cs[i]?).map (fun c => { c with x := v }) else cs[j]? := by
  unfold GEOSCoordSeq_setX_r
  split
  · next c hc =>
    by_cases h : j = i
    · subst h
      have hlt : j < cs.length := by
        rcases Nat.lt_or_ge j cs.length with h | h
        · exact h
        · simp [List.getElem?_eq_none h] at hc
      simp [List.getElem?_set, hlt, hc]
    · have h2 : i ≠ j := fun e => h e.symm
      simp [List.getElem?_set, h, h2]
  · next hc =>
    by_cases h : j = i
    · subst h; simp [hc]
    · simp [h]

theorem setY_getElem? (cs : GEOSCoordSequence) (i j : Nat) (v : Double) :
    (GEOSCoordSeq_setY_r cs i v)[j]? =
      if j = i then (cs[i]?).map (fun c => { c with y := v }) else cs[j]? := by
  unfold GEOSCoordSeq_setY_r
  split
  · next c hc =>
    by_cases h : j = i
    · subst h
      have hlt : j < cs.length := by
        rcases Nat.lt_or_ge j cs.length with h | h
        · exact h
        · simp [List.getElem?_eq_none h] at hc
      simp [List.getElem?_set, hlt, hc]
    · have h2 : i ≠ j := fun e => h e.symm
      simp [List.getElem?_set, h, h2]
  · next hc =>
    by_cases h : j = i
    · subst h; simp [hc]
    · simp [h]

theorem setZ_getElem? (cs : GEOSCoordSequence) (i j : Nat) (v : Double) :
    (GEOSCoordSeq_setZ_r cs i v)[j]? =
      if j = i then (cs[i]?).map (fun c => { c with z := v }) else cs[j]? := by
  unfold GEOSCoordSeq_setZ_r
  split
  · next c hc =>
    by_cases h : j = i
    · subst h
      have hlt : j < cs.length := by
        rcases Nat.lt_or_ge j cs.length with h | h
        · exact h
        · simp [List.getElem?_eq_none h] at hc
      simp [List.getElem?_set, hlt, hc]
    · have h2 : i ≠ j := fun e => h e.symm
      simp [List.getElem?_set, h, h2]
  · next hc =>
    by_cases h : j = i
    · subst h; simp [hc]
    · simp [h]

/-- The three stores of one position: the position then holds exactly `(x, y, z)`. -/
theorem set_xyz_getElem? (cs : GEOSCoordSequence) (i j : Nat) (x y z : Double)
    (hi : i < cs.length) :
    (GEOSCoordSeq_setZ_r (GEOSCoordSeq_setY_r (GEOSCoordSeq_setX_r cs i x) i y) i z)[j]? =
      if j = i then some ⟨x, y, z⟩ else cs[j]? := by
  rw [setZ_getElem?, setY_getElem?, setY_getElem?, setX_getElem?, setX_getElem?]
  by_cases h : j = i
  · subst h
    simp [List.getElem?_eq_getElem hi]
  · simp [h]

theorem set_xyz_length (cs : GEOSCoordSequence) (i : Nat) (x y z : Double) :
    (GEOSCoordSeq_setZ_r (GEOSCoordSeq_setY_r (GEOSCoordSeq_setX_r cs i x) i y) i z).length =
      cs.length := by
  rw [setZ_length, setY_length, setX_length]

/-! ## Lemmas: the two loops of `coord_seq_from_array` -/

theorem read_entry_eq (convert : Converter) (factory : RGeo_FactoryData) (dims : Nat)
    (array : List VALUE) (i : Nat) (coords : List Double) :
    read_entry convert factory (has_z_of factory) dims array i coords =
      (entry_coord convert factory (rb_ary_entry array i)).map
        (fun c => written (has_z_of factory) dims i c coords) := by
  unfold read_entry entry_coord written
  cases convert factory (rb_ary_entry array i) .rgeo_feature_point_module with
  | none => rfl
  | some g =>
    simp only
    cases GEOSGeom_getCoordSeq_r factory.geos_context g with
    | none => rfl
    | some cs =>
      simp only
      cases GEOSCoordSeq_getX_r factory.geos_context cs 0 with
      | none => rfl
      | some x =>
        cases GEOSCoordSeq_getY_r factory.geos_context cs 0 with
        | none => rfl
        | some y =>
          simp only
          cases has_z_of factory with
          | false => simp
          | true =>
            cases GEOSCoordSeq_getZ_r factory.geos_context cs 0 with
            | none => simp
            | some z => simp

theorem written_length (has_z : Bool) (dims i : Nat) (c : Coord) (coords : List Double) :
    (written has_z dims i c coords).length = coords.length := by
  unfold written
  cases has_z <;> simp

theorem written_rd (has_z : Bool) (i : Nat) (c : Coord) (coords : List Double)
    (hb : (i + 1) * dims_of has_z ≤ coords.length) (hl : coords.length < 2 ^ 32) :
    (∀ k, k < i * dims_of has_z →
        rd (written has_z (dims_of has_z) i c coords) k = rd coords k) ∧
    (∀ k, (i + 1) * dims_of has_z ≤ k →
        rd (written has_z (dims_of has_z) i c coords) k = rd coords k) ∧
    rd (written has_z (dims_of has_z) i c coords) (i * dims_of has_z) = c.x ∧
    rd (written has_z (dims_of has_z) i c coords) (i * dims_of has_z + 1) = c.y ∧
    (has_z = true → rd (written has_z (dims_of has_z) i c coords) (i * dims_of has_z + 2) = c.z) := by
  cases has_z with
  | false =>
    have h0 : uint (i * 2) = i * 2 := uint_of_lt (by simp [dims_of] at hb; omega)
    have h1 : uint (i * 2 + 1) = i * 2 + 1 := uint_of_lt (by simp [dims_of] at hb; omega)
    simp only [dims_of, written, Bool.false_eq_true, if_false, h0, h1] at hb ⊢
    refine ⟨?_, ?_, ?_, ?_, ?_⟩
    · intro k hk
      rw [rd_set_ne _ _ _ _ (by omega), rd_set_ne _ _ _ _ (by omega)]
    · intro k hk
      rw [rd_set_ne _ _ _ _ (by omega), rd_set_ne _ _ _ _ (by omega)]
    · rw [rd_set_ne _ _ _ _ (by omega), rd_set_eq _ _ _ (by omega)]
    · rw [rd_set_eq _ _ _ (by simp; omega)]
    · intro h; cases h
  | true =>
    have h0 : uint (i * 3) = i * 3 := uint_of_lt (by simp [dims_of] at hb; omega)
    have h1 : uint (i * 3 + 1) = i * 3 + 1 := uint_of_lt (by simp [dims_of] at hb; omega)
    have h2 : uint (i * 3 + 2) = i * 3 + 2 := uint_of_lt (by simp [dims_of] at hb; omega)
    simp only [dims_of, written, if_true, h0, h1, h2] at hb ⊢
    refine ⟨?_, ?_, ?_, ?_, ?_⟩
    · intro k hk
      rw [rd_set_ne _ _ _ _ (by omega), rd_set_ne _ _ _ _ (by omega),
        rd_set_ne _ _ _ _ (by omega)]
    · intro k hk
      rw [rd_set_ne _ _ _ _ (by omega), rd_set_ne _ _ _ _ (by omega),
        rd_set_ne _ _ _ _ (by omega)]
    · rw [rd_set_ne _ _ _ _ (by omega), rd_set_ne _ _ _ _ (by omega),
        rd_set_eq _ _ _ (by omega)]
    · rw [rd_set_ne _ _ _ _ (by omega), rd_set_eq _ _ _ (by simp; omega)]
    · intro _
      rw [rd_set_eq _ _ _ (by simp; omega)]

/-- The first loop on good entries: it ends with a buffer of the same size that holds,
for every handled index `j`, the entry's x at `j*dims`, y at `j*dims+1` and (with
`has_z`) z at `j*dims+2`, and leaves the slots below `i*dims` alone. -/
theorem read_entries_good (convert : Converter) (factory : RGeo_FactoryData)
    (array : List VALUE) (P : Nat → Coord) :
    ∀ (count i : Nat) (coords : List Double),
      (i + count) * dims_of (has_z_of factory) ≤ coords.length → coords.length < 2 ^ 32 →
      (∀ j, i ≤ j → j < i + count →
        entry_coord convert factory (rb_ary_entry array j) = some (P j)) →
      ∃ coords', read_entries convert factory (has_z_of factory) (dims_of (has_z_of factory))
          array count i coords = some coords' ∧
        coords'.length = coords.length ∧
        (∀ k, k < i * dims_of (has_z_of factory) → rd coords' k = rd coords k) ∧
        (∀ j, i ≤ j → j < i + count →
          rd coords' (j * dims_of (has_z_of factory)) = (P j).x ∧
          rd coords' (j * dims_of (has_z_of factory) + 1) = (P j).y ∧
          (has_z_of factory = true →
            rd coords' (j * dims_of (has_z_of factory) + 2) = (P j).z)) := by
  intro count
  induction count with
  | zero =>
    intro i coords _ _ _
    exact ⟨coords, rfl, rfl, fun _ _ => rfl, fun j h1 h2 => by omega⟩
  | succ n ih =>
    intro i coords hb hl hP
    have hd : 2 ≤ dims_of (has_z_of factory) := by unfold dims_of; split <;> omega
    have hi1 : (i + 1) * dims_of (has_z_of factory) ≤ coords.length := by
      have : (i + 1) * dims_of (has_z_of factory) ≤ (i + (n + 1)) * dims_of (has_z_of factory) :=
        Nat.mul_le_mul_right _ (by omega)
      omega
    have hlt : i + 1 < 2 ^ 32 := by
      have : (i + 1) * 2 ≤ (i + 1) * dims_of (has_z_of factory) := Nat.mul_le_mul_left _ hd
      omega
    have hw := written_rd (has_z_of factory) i (P i) coords hi1 hl
    have hlen := written_length (has_z_of factory) (dims_of (has_z_of factory)) i (P i) coords
    obtain ⟨c', hc1, hc2, hc3, hc4⟩ := ih (i + 1)
      (written (has_z_of factory) (dims_of (has_z_of factory)) i (P i) coords)
      (by rw [hlen]; have : i + 1 + n = i + (n + 1) := by omega
          rw [this]; exact hb)
      (by rw [hlen]; exact hl)
      (fun j h1 h2 => hP j (by omega) (by omega))
    refine ⟨c', ?_, ?_, ?_, ?_⟩
    · simp only [read_entries, read_entry_eq, hP i (Nat.le_refl _) (by omega), Option.map_some',
        uint_of_lt hlt]
      exact hc1
    · rw [hc2, hlen]
    · intro k hk
      have hk' : k < (i + 1) * dims_of (has_z_of factory) := by
        have : i * dims_of (has_z_of factory) ≤ (i + 1) * dims_of (has_z_of factory) :=
          Nat.mul_le_mul_right _ (by omega)
        omega
      rw [hc3 k hk', hw.1 k hk]
    · intro j h1 h2
      rcases Nat.eq_or_lt_of_le h1 with h | h
      · subst h
        have e : (i + 1) * dims_of (has_z_of factory) = i * dims_of (has_z_of factory) +
            dims_of (has_z_of factory) := by rw [Nat.add_mul, Nat.one_mul]
        refine ⟨?_, ?_, ?_⟩
        · rw [hc3 _ (by omega)]; exact hw.2.2.1
        · rw [hc3 _ (by omega)]; exact hw.2.2.2.1
        · intro hz
          have h3 : dims_of (has_z_of factory) = 3 := by simp [dims_of, hz]
          rw [hc3 _ (by omega)]; exact hw.2.2.2.2 hz
      · exact hc4 j (by omega) (by omega)

/-- The second loop: positions `i .. i+count-1` end up holding the buffer's values. -/
theorem store_coords_getElem? (has_z : Bool) (coords : List Double) :
    ∀ (count i : Nat) (cs : GEOSCoordSequence),
      i + count ≤ cs.length → (i + count) * dims_of has_z < 2 ^ 32 →
      (store_coords has_z (dims_of has_z) coords count i cs).length = cs.length ∧
      ∀ j, (store_coords has_z (dims_of has_z) coords count i cs)[j]? =
        if i ≤ j ∧ j < i + count then
          some ⟨rd coords (j * dims_of has_z), rd coords (j * dims_of has_z + 1),
            if has_z then rd coords (j * dims_of has_z + 2) else Double.zero⟩
        else cs[j]? := by
  intro count
  induction count with
  | zero =>
    intro i cs _ _
    refine ⟨rfl, fun j => ?_⟩
    have : ¬ (i ≤ j ∧ j < i) := by omega
    simp [store_coords, this]
  | succ n ih =>
    intro i cs hb hl
    have hd : 2 ≤ dims_of has_z := by unfold dims_of; split <;> omega
    have hd3 : dims_of has_z ≤ 3 := by unfold dims_of; split <;> omega
    have hmul : (i + 1) * dims_of has_z ≤ (i + (n + 1)) * dims_of has_z :=
      Nat.mul_le_mul_right _ (by omega)
    have e : (i + 1) * dims_of has_z = i * dims_of has_z + dims_of has_z := by
      rw [Nat.add_mul, Nat.one_mul]
    have hlt : i + 1 < 2 ^ 32 := by
      have : (i + 1) * 2 ≤ (i + 1) * dims_of has_z := Nat.mul_le_mul_left _ hd
      omega
    have h0 : uint (i * dims_of has_z) = i * dims_of has_z := uint_of_lt (by omega)
    have h1 : uint (i * dims_of has_z + 1) = i * dims_of has_z + 1 := uint_of_lt (by omega)
    have h2 : uint (i * dims_of has_z + 2) = i * dims_of has_z + 2 := uint_of_lt (by omega)
    simp only [store_coords, uint_of_lt hlt, h0, h1, h2]
    obtain ⟨l1, l2⟩ := ih (i + 1) (GEOSCoordSeq_setZ_r (GEOSCoordSeq_setY_r
      (GEOSCoordSeq_setX_r cs i (rd coords (i * dims_of has_z))) i
      (rd coords (i * dims_of has_z + 1))) i
      (if has_z then rd coords (i * dims_of has_z + 2) else Double.zero))
      (by rw [set_xyz_length]; omega)
      (by have : i + 1 + n = i + (n + 1) := by omega
          rw [this]; exact hl)
    refine ⟨by rw [l1, set_xyz_length], fun j => ?_⟩
    rw [l2 j, set_xyz_getElem? _ _ _ _ _ _ (by omega)]
    by_cases c1 : i + 1 ≤ j ∧ j < i + 1 + n
    · have c2 : i ≤ j ∧ j < i + (n + 1) := by omega
      simp [c1, c2]
    · by_cases c3 : j = i
      · subst c3
        have c2 : j ≤ j ∧ j < j + (n + 1) := by omega
        simp [c2]
      · have c2 : ¬ (i ≤ j ∧ j < i + (n + 1)) := by omega
        simp [c1, c2, c3]

/-! ## `coord_seq_from_array` on an array of good entries -/

theorem map_range_append_getElem? (P : Nat → Coord) (n j : Nat) (tail : List Coord) :
    ((List.range n).map P ++ tail)[j]? = if j < n then some (P j) else tail[j - n]? := by
  by_cases h : j < n
  · rw [List.getElem?_append_left (by simpa using h)]
    simp [h, List.getElem?_range]
  · rw [List.getElem?_append_right (by simpa using h)]
    simp [h]

theorem entry_coord_z (convert : Converter) (factory : RGeo_FactoryData) (entry : VALUE)
    (c : Coord) (h : entry_coord convert factory entry = some c)
    (hz : has_z_of factory = false) : c.z = Double.zero := by
  unfold entry_coord at h
  split at h
  · cases h
  · split at h
    · cases h
    · split at h
      · simp only [hz, Bool.false_eq_true, if_false, Option.some.injEq] at h
        rw [← h]
      · cases h

theorem close_decision_eq (has_z : Bool) (n : Nat) (P : Nat → Coord) (coords : List Double)
    (close : Bool) (hn : n * dims_of has_z < 2 ^ 32)
    (h : ∀ j, j < n → rd coords (j * dims_of has_z) = (P j).x ∧
      rd coords (j * dims_of has_z + 1) = (P j).y) :
    close_decision n (dims_of has_z) coords close = closes close n P := by
  unfold close_decision closes xy_ceq
  rcases Nat.eq_zero_or_pos n with h0 | hpos
  · subst h0; simp
  · have hd : 2 ≤ dims_of has_z := by unfold dims_of; split <;> omega
    have e : n * dims_of has_z = (n - 1) * dims_of has_z + dims_of has_z := by
      conv_lhs => rw [show n = (n - 1) + 1 by omega]
      rw [Nat.add_mul, Nat.one_mul]
    have u0 : uint ((n - 1) * dims_of has_z) = (n - 1) * dims_of has_z :=
      uint_of_lt (by omega)
    have u1 : uint ((n - 1) * dims_of has_z + 1) = (n - 1) * dims_of has_z + 1 :=
      uint_of_lt (by omega)
    have f0 := h 0 hpos
    have fl := h (n - 1) (by omega)
    simp only [Nat.zero_mul, Nat.zero_add] at f0
    rw [u0, u1, f0.1, f0.2, fl.1, fl.2]
    cases close <;> simp [hpos]

/-- The characterisation of `coord_seq_from_array` when every entry is good: the result is
the points in order, followed by the first point when the closure decision says so; it
is `NULL` exactly when the engine does not create the sequence. -/
theorem coord_seq_from_array_good (convert : Converter) (factory : RGeo_FactoryData)
    (array : List VALUE) (close : Bool) (P : Nat → Coord)
    (hlen : array.length * dims_of (has_z_of factory) < 2 ^ 32)
    (hP : ∀ j, j < array.length →
      entry_coord convert factory (rb_ary_entry array j) = some (P j)) :
    coord_seq_from_array convert factory array close =
      if factory.geos_context.fails
          (.coordSeqCreate (array.length + (closes close array.length P).toNat) 3) then none
      else some ((List.range array.length).map P ++
        if closes close array.length P then [P 0] else []) := by
  have hd : 2 ≤ dims_of (has_z_of factory) := by unfold dims_of; split <;> omega
  have hd3 : dims_of (has_z_of factory) ≤ 3 := by unfold dims_of; split <;> omega
  have hn : array.length < 2 ^ 32 := by
    have : array.length * 2 ≤ array.length * dims_of (has_z_of factory) :=
      Nat.mul_le_mul_left _ hd
    omega
  have hn1 : array.length + (closes close array.length P).toNat < 2 ^ 32 := by
    rcases Nat.eq_zero_or_pos array.length with h0 | hpos
    · simp [closes, h0]
    · have : array.length * 2 ≤ array.length * dims_of (has_z_of factory) :=
        Nat.mul_le_mul_left _ hd
      have : (closes close array.length P).toNat ≤ 1 := Bool.toNat_le _
      omega
  obtain ⟨coords, hr1, hr2, -, hr4⟩ := read_entries_good convert factory array P array.length 0
    (List.replicate (if (array.length == 0) = true then 1
      else uint (array.length * dims_of (has_z_of factory))) Double.zero)
    (by
      rw [List.length_replicate, Nat.zero_add]
      by_cases h0 : array.length = 0
      · simp [h0]
      · simp [h0, uint_of_lt hlen])
    (by
      rw [List.length_replicate]
      by_cases h0 : array.length = 0
      · simp [h0]
      · simp [h0, uint_of_lt hlen]; exact hlen)
    (fun j _ h2 => hP j (by omega))
  have hdec := close_decision_eq (has_z_of factory) array.length P coords close hlen
    (fun j hj => ⟨(hr4 j (Nat.zero_le _) (by omega)).1, (hr4 j (Nat.zero_le _) (by omega)).2.1⟩)
  unfold coord_seq_from_array
  simp only [uint_of_lt hn]
  change (match read_entries convert factory (has_z_of factory) (dims_of (has_z_of factory))
      array array.length 0 (List.replicate (if (array.length == 0) = true then 1
        else uint (array.length * dims_of (has_z_of factory))) Double.zero) with
    | none => none
    | some coords =>
      match GEOSCoordSeq_create_r factory.geos_context
          (uint (array.length + (close_decision array.length (dims_of (has_z_of factory))
            coords close).toNat)) 3 with
      | none => none
      | some coord_seq =>
        some (if close_decision array.length (dims_of (has_z_of factory)) coords close = true
          then GEOSCoordSeq_setZ_r (GEOSCoordSeq_setY_r (GEOSCoordSeq_setX_r
              (store_coords (has_z_of factory) (dims_of (has_z_of factory)) coords
                array.length 0 coord_seq) array.length (rd coords 0)) array.length
              (rd coords 1)) array.length
              (if has_z_of factory = true then rd coords 2 else Double.zero)
          else store_coords (has_z_of factory) (dims_of (has_z_of factory)) coords
            array.length 0 coord_seq)) = _
  rw [hr1]
  simp only [hdec, uint_of_lt hn1, GEOSCoordSeq_create_r]
  by_cases hf : factory.geos_context.fails
      (.coordSeqCreate (array.length + (closes close array.length P).toNat) 3) = true
  · simp [hf]
  · simp only [hf, Bool.false_eq_true, if_false, Option.some.injEq]
    obtain ⟨s1, s2⟩ := store_coords_getElem? (has_z_of factory) coords array.length 0
      (List.replicate (array.length + (closes close array.length P).toNat)
        factory.geos_context.blank)
      (by rw [List.length_replicate]; omega)
      (by rw [Nat.zero_add]; exact hlen)
    have hz : ∀ j, j < array.length →
        (⟨rd coords (j * dims_of (has_z_of factory)),
          rd coords (j * dims_of (has_z_of factory) + 1),
          if has_z_of factory = true then rd coords (j * dims_of (has_z_of factory) + 2)
          else Double.zero⟩ : Coord) = P j := by
      intro j hj
      obtain ⟨a, b, c⟩ := hr4 j (Nat.zero_le _) (by omega)
      cases hzf : has_z_of factory with
      | true =>
        rw [hzf] at a b c
        simp only [if_true]
        rw [a, b, c rfl]
      | false =>
        rw [hzf] at a b
        have := entry_coord_z convert factory _ _ (hP j hj) hzf
        simp only [Bool.false_eq_true, if_false]
        rw [a, b, ← this]
    apply List.ext_getElem?
    intro j
    cases hcl : closes close array.length P with
    | true =>
      have hpos : 0 < array.length := by
        simp only [closes, Bool.and_eq_true, decide_eq_true_eq] at hcl
        exact hcl.1.2
      have h0 := hz 0 hpos
      simp only [Nat.zero_mul, Nat.zero_add] at h0
      rw [hcl] at s1 s2
      simp only [if_true]
      rw [set_xyz_getElem? _ _ _ _ _ _ (by rw [s1, List.length_replicate]; simp), s2 j, h0,
        map_range_append_getElem?]
      by_cases hj : j < array.length
      · have : j ≠ array.length := by omega
        simp [hj, this, hz j hj]
      · by_cases hj2 : j = array.length
        · subst hj2; simp
        · have h1 : array.length + 1 ≤ j := by omega
          have h2 : j - array.length ≠ 0 := by omega
          have h3 : 1 ≤ j - array.length := by omega
          simp only [hj, hj2, if_false, Nat.zero_le, true_and, Nat.zero_add]
          rw [List.getElem?_eq_none (by simp; omega), List.getElem?_eq_none (by simp; omega)]
    | false =>
      rw [hcl] at s1 s2
      simp only [Bool.false_eq_true, if_false]
      rw [s2 j, map_range_append_getElem?]
      by_cases hj : j < array.length
      · simp [hj, hz j hj]
      · have : array.length ≤ j := by omega
        simp [hj, this]

/-! ## `coord_seq_from_array` in terms of the list of points -/

theorem range_map_getD (pts : List Coord) (d : Coord) :
    (List.range pts.length).map (fun j => (pts[j]?).getD d) = pts := by
  apply List.ext_getElem?
  intro j
  by_cases h : j < pts.length
  · simp [List.getElem?_range, h, List.getElem?_eq_getElem]
  · have h' : pts.length ≤ j := by omega
    simp [List.getElem?_eq_none, h']

theorem needs_closing_eq (pts : List Coord) (d : Coord) (h : 0 < pts.length) :
    needs_closing pts = !xy_ceq ((pts[0]?).getD d) ((pts[pts.length - 1]?).getD d) := by
  unfold needs_closing
  rw [List.head?_eq_getElem?, List.getLast?_eq_getElem?]
  have h1 : pts.length - 1 < pts.length := by omega
  simp [List.getElem?_eq_getElem h, List.getElem?_eq_getElem h1]

theorem needs_closing_nil : needs_closing [] = false := rfl

theorem closes_eq (close : Bool) (pts : List Coord) (d : Coord) :
    closes close pts.length (fun j => (pts[j]?).getD d) = (close && needs_closing pts) := by
  unfold closes
  rcases Nat.eq_zero_or_pos pts.length with h | h
  · have : pts = [] := List.length_eq_zero.mp h
    subst this
    simp [needs_closing_nil]
  · rw [needs_closing_eq pts d h]
    simp [h]

/-- The result of `coord_seq_from_array` when the entries convert to the points `pts`:
the points in order, followed by a copy of the first one when closing is requested and
needed; `NULL` exactly when the engine does not create the sequence. -/
theorem coord_seq_from_array_points (convert : Converter) (factory : RGeo_FactoryData)
    (array : List VALUE) (close : Bool) (pts : List Coord)
    (hlen : array.length * dims_of (has_z_of factory) < 2 ^ 32)
    (hconv : array.map (entry_coord convert factory) = pts.map some) :
    coord_seq_from_array convert factory array close =
      if factory.geos_context.fails
          (.coordSeqCreate (pts.length + (close && needs_closing pts).toNat) 3) then none
      else some (pts ++ if (close && needs_closing pts) = true then pts.take 1 else []) := by
  have hl : array.length = pts.length := by
    have := congrArg List.length hconv
    simpa using this
  have hP : ∀ j, j < array.length → entry_coord convert factory (rb_ary_entry array j) =
      some ((fun j => (pts[j]?).getD ⟨Double.zero, Double.zero, Double.zero⟩) j) := by
    intro j hj
    have hj' : j < pts.length := by omega
    have := congrArg (fun l => l[j]?) hconv
    simp only [List.getElem?_map, List.getElem?_eq_getElem hj, List.getElem?_eq_getElem hj',
      Option.map_some', Option.some.injEq] at this
    simp only [rb_ary_entry, List.getElem?_eq_getElem hj, List.getElem?_eq_getElem hj',
      Option.getD_some]
    rw [this]
  rw [coord_seq_from_array_good convert factory array close _ hlen hP, hl, closes_eq,
    range_map_getD]
  congr 2
  cases hc : (close && needs_closing pts) with
  | false => rfl
  | true =>
    cases pts with
    | nil => simp [needs_closing_nil] at hc
    | cons a t => simp

theorem read_entries_bad (convert : Converter) (factory : RGeo_FactoryData)
    (array : List VALUE) (dims : Nat) :
    ∀ (count i : Nat) (coords : List Double), i + count < 2 ^ 32 →
      (∃ j, i ≤ j ∧ j < i + count ∧
        entry_coord convert factory (rb_ary_entry array j) = none) →
      read_entries convert factory (has_z_of factory) dims array count i coords = none := by
  intro count
  induction count with
  | zero =>
    intro i coords _ ⟨j, h1, h2, _⟩
    omega
  | succ n ih =>
    intro i coords hb ⟨j, h1, h2, h3⟩
    simp only [read_entries, read_entry_eq]
    cases hi : entry_coord convert factory (rb_ary_entry array i) with
    | none => rfl
    | some c =>
      simp only [Option.map_some']
      rw [uint_of_lt (by omega)]
      apply ih (i + 1) _ (by omega)
      refine ⟨j, ?_, by omega, h3⟩
      rcases Nat.eq_or_lt_of_le h1 with e | e
      · subst e; rw [hi] at h3; cases h3
      · omega

/-- One entry that is not good makes `coord_seq_from_array` return `NULL`. -/
theorem coord_seq_from_array_bad (convert : Converter) (factory : RGeo_FactoryData)
    (array : List VALUE) (close : Bool) (hlen : array.length < 2 ^ 32)
    (h : ∃ v, v ∈ array ∧ entry_coord convert factory v = none) :
    coord_seq_from_array convert factory array close = none := by
  obtain ⟨v, hv, hnone⟩ := h
  obtain ⟨j, hj, hjv⟩ := List.getElem_of_mem hv
  have hbad := read_entries_bad convert factory array
    (if has_z_of factory = true then 3 else 2) array.length 0
    (List.replicate (if (array.length == 0) = true then 1
      else uint (array.length * if has_z_of factory = true then 3 else 2)) Double.zero)
    (by omega)
    ⟨j, Nat.zero_le _, by omega, by
      simp only [rb_ary_entry, List.getElem?_eq_getElem hj, Option.getD_some, hjv, hnone]⟩
  unfold coord_seq_from_array
  simp only [uint_of_lt hlen]
  rw [hbad]

/-- An entry is not good exactly when it does not convert to a point geometry, or the
geometry has no coordinate sequence, or its x, its y, or (with z enabled) its z cannot be
read. -/
theorem entry_coord_eq_none_iff (convert : Converter) (factory : RGeo_FactoryData)
    (entry : VALUE) :
    entry_coord convert factory entry = none ↔
      (convert factory entry .rgeo_feature_point_module = none ∨
       ∃ g, convert factory entry .rgeo_feature_point_module = some g ∧
        (GEOSGeom_getCoordSeq_r factory.geos_context g = none ∨
         ∃ cs, GEOSGeom_getCoordSeq_r factory.geos_context g = some cs ∧
          (GEOSCoordSeq_getX_r factory.geos_context cs 0 = none ∨
           GEOSCoordSeq_getY_r factory.geos_context cs 0 = none ∨
           (has_z_of factory = true ∧
             GEOSCoordSeq_getZ_r factory.geos_context cs 0 = none)))) := by
  unfold entry_coord
  cases h1 : convert factory entry .rgeo_feature_point_module with
  | none => simp
  | some g =>
    cases h2 : GEOSGeom_getCoordSeq_r factory.geos_context g with
    | none => simp [h2]
    | some cs =>
      cases h3 : GEOSCoordSeq_getX_r factory.geos_context cs 0 with
      | none => simp [h2, h3]
      | some x =>
        cases h4 : GEOSCoordSeq_getY_r factory.geos_context cs 0 with
        | none => simp [h2, h3, h4]
        | some y =>
          cases h5 : has_z_of factory with
          | false => simp [h2, h3, h4]
          | true =>
            cases h6 : GEOSCoordSeq_getZ_r factory.geos_context cs 0 with
            | none => simp [h2, h3, h4, h6]
            | some z => simp [h2, h3, h4, h6]

/-! ## Lemmas: `==` on doubles and the closed test -/

theorem Double.ceq_self (a : Double) (h : a.isNaN = false) : a.ceq a = true := by
  simp [Double.ceq, h]

theorem xy_ceq_self (c : Coord) (hx : c.x.isNaN = false) (hy : c.y.isNaN = false) :
    xy_ceq c c = true := by
  simp [xy_ceq, Double.ceq_self, hx, hy]

theorem needs_closing_iff (pts : List Coord) :
    needs_closing pts = true ↔
      ∃ first last, pts.head? = some first ∧ pts.getLast? = some last ∧
        xy_ceq first last = false := by
  unfold needs_closing
  cases h1 : pts.head? with
  | none => simp
  | some a =>
    cases h2 : pts.getLast? with
    | none => simp
    | some b => simp

theorem int_to_uint_natCast (n : Nat) (h : n < 2 ^ 32) : int_to_uint (n : Int) = n := by
  unfold int_to_uint
  have : ((n : Int) % 2 ^ 32) = (n : Int) := Int.emod_eq_of_lt (by omega) (by omega)
  rw [this]
  simp

theorem int_to_uint_neg_one : int_to_uint (-1) = 2 ^ 32 - 1 := by decide

/-- The closed test on a geometry whose reads succeed: no value on the empty sequence,
else the comparison of the first and the last coordinate in x and y. -/
theorem is_closed_eq (context : GEOSContext) (geom : GEOSGeometry)
    (hn : geom.coordSeq.length < 2 ^ 32) (hr : closed_reads_succeed context geom) :
    rgeo_is_geos_line_string_closed context geom =
      match geom.coordSeq.head?, geom.coordSeq.getLast? with
      | some first, some last => if xy_ceq first last then .Qtrue else .Qfalse
      | _, _ => .Qnil := by
  obtain ⟨r1, r2, r3⟩ := hr
  have r3x : ∀ i, context.fails (.getX geom.coordSeq i) = false := fun i => (r3 i).1
  have r3y : ∀ i, context.fails (.getY geom.coordSeq i) = false := fun i => (r3 i).2
  unfold rgeo_is_geos_line_string_closed
  simp only [GEOSGetNumCoordinates_r, r1, Bool.false_eq_true, if_false,
    int_to_uint_natCast _ hn, GEOSGeom_getCoordSeq_r, r2, getX_of, getY_of, Option.some_bind,
    GEOSCoordSeq_getX_r, GEOSCoordSeq_getY_r, r3x, r3y]
  cases hc : geom.coordSeq with
  | nil => simp
  | cons a t =>
    have hlast : (a :: t)[t.length]? = (a :: t).getLast? := by
      rw [List.getLast?_eq_getElem?]; simp
    simp only [List.length_cons, Nat.add_sub_cancel, List.head?_cons, hlast]
    cases hl : (a :: t).getLast? with
    | none => simp at hl
    | some b =>
      simp only [List.getElem?_cons_zero, Option.map_some', xy_ceq]
      by_cases hx : a.x.ceq b.x = true
      · by_cases hy : a.y.ceq b.y = true
        · simp [hx, hy]
        · simp [hx, hy]
      · simp [hx]

/-- The closed test on an empty sequence reports no value, whatever the engine does. -/
theorem is_closed_empty (context : GEOSContext) (geom : GEOSGeometry)
    (h : geom.coordSeq = []) :
    rgeo_is_geos_line_string_closed context geom = .Qnil := by
  unfold rgeo_is_geos_line_string_closed
  simp only [GEOSGetNumCoordinates_r, GEOSGeom_getCoordSeq_r, h, getX_of,
    GEOSCoordSeq_getX_r]
  by_cases h1 : context.fails (.getNumCoordinates geom) = true
  · by_cases h2 : context.fails (.getCoordSeq geom) = true
    · simp [h1, h2, int_to_uint_neg_one]
    · simp [h1, h2, int_to_uint_neg_one]
  · simp [h1, int_to_uint]

theorem good_entries_points (convert : Converter) (factory : RGeo_FactoryData)
    (array : List VALUE) (hgood : ∀ v, v ∈ array → entry_coord convert factory v ≠ none) :
    array.map (entry_coord convert factory) =
      (array.map (fun v => (entry_coord convert factory v).getD
        ⟨Double.zero, Double.zero, Double.zero⟩)).map some := by
  rw [List.map_map]
  apply List.map_congr_left
  intro v hv
  cases h : entry_coord convert factory v with
  | none => exact absurd h (hgood v hv)
  | some c => simp [h]

theorem points_length_bound (factory : RGeo_FactoryData) (n : Nat) (b : Bool)
    (hlen : n * dims_of (has_z_of factory) < 2 ^ 32) : n + b.toNat < 2 ^ 32 := by
  have hd : 2 ≤ dims_of (has_z_of factory) := by unfold dims_of; split <;> omega
  have h1 : n * 2 ≤ n * dims_of (has_z_of factory) := Nat.mul_le_mul_left _ hd
  have h2 : b.toNat ≤ 1 := Bool.toNat_le _
  omega

/-- An array whose length is a multiple of `2 ^ 32` is read as `len = 0`: no entry is
looked at and the empty sequence is created. -/
theorem coord_seq_from_array_wrapped (convert : Converter) (factory : RGeo_FactoryData)
    (array : List VALUE) (close : Bool) (h : array.length % 2 ^ 32 = 0) :
    coord_seq_from_array convert factory array close =
      if factory.geos_context.fails (.coordSeqCreate 0 3) then none else some [] := by
  unfold coord_seq_from_array
  simp only [uint, h, read_entries, close_decision, store_coords, GEOSCoordSeq_create_r]
  by_cases hf : factory.geos_context.fails (.coordSeqCreate 0 3) = true
  · simp [hf]
  · simp [hf]

/-! ## Claims about `coord_seq_from_array` -/

/-- C1, as stated, fails: the single-point array `[(NaN, 0)]` converts successfully, and
with closing requested `coord_seq_from_array` returns two coordinates, so a single-point
input is closed against itself. -/
theorem coord_seq_from_array_closes_single_nan_point :
    [nan_point_obj 1].map (entry_coord Converter.points factory_2d) =
        [some ⟨Double.nan, Double.zero, Double.zero⟩] ∧
      coord_seq_from_array Converter.points factory_2d [nan_point_obj 1] true =
        some [⟨Double.nan, Double.zero, Double.zero⟩, ⟨Double.nan, Double.zero, Double.zero⟩] := by
  decide

/-- C1 (amended): for an array whose entries all convert (to the points `pts`) and whose
length the `unsigned int` index arithmetic holds, the sequence built by
`coord_seq_from_array` exists whenever the engine creates it, and it has `len + 1`
coordinates if and only if closing is requested, the array is not empty and the first
and the last point do not agree in x and y under C `==`; otherwise it has `len`
coordinates. So `close = false` gives `len`, an input whose first and last point agree
is not closed again, and a single point whose x and y are not NaN is not closed against
itself. -/
theorem coord_seq_from_array_size (convert : Converter) (factory : RGeo_FactoryData)
    (array : List VALUE) (close : Bool) (pts : List Coord)
    (hlen : array.length * dims_of (has_z_of factory) < 2 ^ 32)
    (hconv : array.map (entry_coord convert factory) = pts.map some) :
    ((∀ n, factory.geos_context.fails (.coordSeqCreate n 3) = false) →
      ∃ seq, coord_seq_from_array convert factory array close = some seq) ∧
    ∀ seq, coord_seq_from_array convert factory array close = some seq →
      (seq.length = array.length + 1 ↔
        close = true ∧ 0 < array.length ∧
          ∃ first last, pts.head? = some first ∧ pts.getLast? = some last ∧
            xy_ceq first last = false) ∧
      (seq.length ≠ array.length + 1 → seq.length = array.length) ∧
      (close = false → seq.length = array.length) ∧
      (∀ first last, pts.head? = some first → pts.getLast? = some last →
        xy_ceq first last = true → seq.length = array.length) ∧
      (∀ p, pts = [p] → p.x.isNaN = false → p.y.isNaN = false →
        seq.length = array.length) := by
  have hl : array.length = pts.length := by
    have := congrArg List.length hconv
    simpa using this
  have hchar := coord_seq_from_array_points convert factory array close pts hlen hconv
  refine ⟨fun hc => ?_, fun seq hseq => ?_⟩
  · rw [hchar, hc]; exact ⟨_, rfl⟩
  · rw [hchar] at hseq
    split at hseq
    · cases hseq
    · have hs : seq.length = pts.length + (close && needs_closing pts).toNat := by
        cases hseq
        cases hcn : (close && needs_closing pts) with
        | false => simp
        | true =>
          cases pts with
          | nil => simp [needs_closing_nil] at hcn
          | cons a t => simp
      have hnc := needs_closing_iff pts
      rw [hl, hs]
      refine ⟨?_, ?_, ?_, ?_, ?_⟩
      · constructor
        · intro h
          have hcn : (close && needs_closing pts) = true := by
            cases hcn : (close && needs_closing pts) with
            | false => rw [hcn] at h; simp at h
            | true => rfl
          rw [Bool.and_eq_true] at hcn
          obtain ⟨first, last, h1, h2, h3⟩ := hnc.mp hcn.2
          refine ⟨hcn.1, ?_, first, last, h1, h2, h3⟩
          cases pts with
          | nil => simp at h1
          | cons a t => simp
        · rintro ⟨hc, _, hex⟩
          have : needs_closing pts = true := hnc.mpr hex
          simp [hc, this]
      · intro h
        cases hcn : (close && needs_closing pts) with
        | false => simp
        | true => rw [hcn] at h; simp at h
      · intro hc
        simp [hc]
      · intro first last h1 h2 h3
        have : needs_closing pts = false := by
          cases hn : needs_closing pts with
          | false => rfl
          | true =>
            obtain ⟨f, l, g1, g2, g3⟩ := hnc.mp hn
            rw [h1] at g1; rw [h2] at g2
            cases g1; cases g2
            rw [h3] at g3; cases g3
        simp [this]
      · intro p hp hx hy
        have : needs_closing pts = false := by
          cases hn : needs_closing pts with
          | false => rfl
          | true =>
            obtain ⟨f, l, g1, g2, g3⟩ := hnc.mp hn
            subst hp
            simp only [List.head?_cons, List.getLast?_singleton, Option.some.injEq] at g1 g2
            subst g1; subst g2
            rw [xy_ceq_self _ hx hy] at g3; cases g3
        simp [this]

/-- C1 (amended), at a concrete input: the open triangle `(0,0), (1,0), (1,1)` of a
factory without z, closing requested, gives four coordinates. -/
theorem coord_seq_from_array_size_witness :
    [point_obj 1 0 0 0, point_obj 1 1 0 0, point_obj 1 1 1 0].length *
        dims_of (has_z_of factory_2d) < 2 ^ 32 ∧
      [point_obj 1 0 0 0, point_obj 1 1 0 0, point_obj 1 1 1 0].map
          (entry_coord Converter.points factory_2d) =
        [coord_of 0 0 0, coord_of 1 0 0, coord_of 1 1 0].map some ∧
      ∃ seq, coord_seq_from_array Converter.points factory_2d
          [point_obj 1 0 0 0, point_obj 1 1 0 0, point_obj 1 1 1 0] true = some seq ∧
        seq.length = 4 :=
  ⟨by decide, by decide, by
    have h := coord_seq_from_array_size Converter.points factory_2d
      [point_obj 1 0 0 0, point_obj 1 1 0 0, point_obj 1 1 1 0] true
      [coord_of 0 0 0, coord_of 1 0 0, coord_of 1 1 0] (by decide) (by decide)
    obtain ⟨seq, hseq⟩ := h.1 (fun _ => rfl)
    exact ⟨seq, hseq, ((h.2 seq hseq).1).mpr
      ⟨rfl, by decide, coord_of 0 0 0, coord_of 1 1 0, rfl, rfl, by decide⟩⟩⟩

/-- C2, as stated, fails: the array `[(NaN, 0), (1, 0)]` is not empty and its first and
last point differ in x; built with closing it has `len + 1 = 3` coordinates, yet
`rgeo_is_geos_line_string_closed` on a geometry holding that sequence reports false,
because `NaN == NaN` is false. -/
theorem closed_test_false_on_closed_nan_sequence :
    coord_seq_from_array Converter.points factory_2d [nan_point_obj 1, point_obj 1 1 0 0]
        true =
      some [⟨Double.nan, Double.zero, Double.zero⟩, coord_of 1 0 0,
        ⟨Double.nan, Double.zero, Double.zero⟩] ∧
    rgeo_is_geos_line_string_closed GEOSContext.reliable
      ⟨.lineString, [⟨Double.nan, Double.zero, Double.zero⟩, coord_of 1 0 0,
        ⟨Double.nan, Double.zero, Double.zero⟩]⟩ = .Qfalse := by
  decide

/-- C2 (amended): for a non-empty array whose entries all convert (to the points `pts`),
whose length the `unsigned int` index arithmetic holds and whose first point has an x
and a y that are not NaN, the sequence built with `close = true` exists whenever the
engine creates it; it has `len + 1` coordinates when the first and the last point do not
agree in x and y; and in every case its first and last coordinate agree in x and y under
C `==`, so that `rgeo_is_geos_line_string_closed` reports true on every geometry holding
it whose reads succeed. -/
theorem coord_seq_from_array_closed (convert : Converter) (factory : RGeo_FactoryData)
    (array : List VALUE) (pts : List Coord) (first : Coord)
    (hlen : array.length * dims_of (has_z_of factory) < 2 ^ 32)
    (hconv : array.map (entry_coord convert factory) = pts.map some)
    (hfirst : pts.head? = some first)
    (hx : first.x.isNaN = false) (hy : first.y.isNaN = false) :
    ((∀ n, factory.geos_context.fails (.coordSeqCreate n 3) = false) →
      ∃ seq, coord_seq_from_array convert factory array true = some seq) ∧
    ∀ seq, coord_seq_from_array convert factory array true = some seq →
      (∀ last, pts.getLast? = some last → xy_ceq first last = false →
        seq.length = array.length + 1) ∧
      (∃ a b, seq.head? = some a ∧ seq.getLast? = some b ∧ xy_ceq a b = true) ∧
      ∀ (context : GEOSContext) (geom : GEOSGeometry), geom.coordSeq = seq →
        closed_reads_succeed context geom →
        rgeo_is_geos_line_string_closed context geom = .Qtrue := by
  have hl : array.length = pts.length := by
    have := congrArg List.length hconv
    simpa using this
  have hchar := coord_seq_from_array_points convert factory array true pts hlen hconv
  refine ⟨fun hc => ?_, fun seq hseq => ?_⟩
  · rw [hchar, hc]; exact ⟨_, rfl⟩
  · rw [hchar] at hseq
    split at hseq
    · cases hseq
    · simp only [Bool.true_and, Option.some.injEq] at hseq
      obtain ⟨t, rfl⟩ : ∃ t, pts = first :: t := by
        cases pts with
        | nil => simp at hfirst
        | cons a t => simp only [List.head?_cons, Option.some.injEq] at hfirst; exact ⟨t, by rw [hfirst]⟩
      have hnc := needs_closing_iff (first :: t)
      have hends : ∃ a b, seq.head? = some a ∧ seq.getLast? = some b ∧ xy_ceq a b = true := by
        cases hn : needs_closing (first :: t) with
        | true =>
          rw [hn] at hseq
          simp only [if_true, List.take_succ_cons, List.take_zero] at hseq
          subst hseq
          refine ⟨first, first, by simp, ?_, xy_ceq_self _ hx hy⟩
          rw [List.getLast?_append]
          simp
        | false =>
          rw [hn] at hseq
          simp only [Bool.false_eq_true, if_false, List.append_nil] at hseq
          subst hseq
          cases hlast : (first :: t).getLast? with
          | none => simp at hlast
          | some b =>
            refine ⟨first, b, by simp, rfl, ?_⟩
            cases hxy : xy_ceq first b with
            | true => rfl
            | false =>
              have : needs_closing (first :: t) = true :=
                hnc.mpr ⟨first, b, by simp, hlast, hxy⟩
              rw [hn] at this; cases this
      have hslen : seq.length = (first :: t).length +
          (needs_closing (first :: t)).toNat := by
        subst hseq
        cases hn : needs_closing (first :: t) <;> simp
      refine ⟨?_, hends, ?_⟩
      · intro last h1 h2
        have : needs_closing (first :: t) = true := hnc.mpr ⟨first, last, by simp, h1, h2⟩
        rw [hslen, this, hl]
        simp
      · intro context geom hg hr
        have hb : geom.coordSeq.length < 2 ^ 32 := by
          rw [hg, hslen, ← hl]
          exact points_length_bound factory _ _ hlen
        rw [is_closed_eq context geom hb hr, hg]
        obtain ⟨a, b, h1, h2, h3⟩ := hends
        simp [h1, h2, h3]

/-- C2 (amended), at a concrete input: the open triangle `(0,0), (1,0), (1,1)` closed by
`coord_seq_from_array` passes the closed test. -/
theorem coord_seq_from_array_closed_witness :
    [point_obj 1 0 0 0, point_obj 1 1 0 0, point_obj 1 1 1 0].length *
        dims_of (has_z_of factory_2d) < 2 ^ 32 ∧
      [point_obj 1 0 0 0, point_obj 1 1 0 0, point_obj 1 1 1 0].map
          (entry_coord Converter.points factory_2d) =
        [coord_of 0 0 0, coord_of 1 0 0, coord_of 1 1 0].map some ∧
      (coord_of 0 0 0).x.isNaN = false ∧ (coord_of 0 0 0).y.isNaN = false ∧
      ∃ seq, coord_seq_from_array Converter.points factory_2d
          [point_obj 1 0 0 0, point_obj 1 1 0 0, point_obj 1 1 1 0] true = some seq ∧
        seq.length = 4 ∧
        rgeo_is_geos_line_string_closed GEOSContext.reliable ⟨.linearRing, seq⟩ = .Qtrue :=
  ⟨by decide, by decide, by decide, by decide, by
    have h := coord_seq_from_array_closed Converter.points factory_2d
      [point_obj 1 0 0 0, point_obj 1 1 0 0, point_obj 1 1 1 0]
      [coord_of 0 0 0, coord_of 1 0 0, coord_of 1 1 0] (coord_of 0 0 0)
      (by decide) (by decide) rfl (by decide) (by decide)
    obtain ⟨seq, hseq⟩ := h.1 (fun _ => rfl)
    exact ⟨seq, hseq, (h.2 seq hseq).1 (coord_of 1 1 0) rfl (by decide),
      (h.2 seq hseq).2.2 GEOSContext.reliable ⟨.linearRing, seq⟩ rfl
        ⟨rfl, rfl, fun _ => ⟨rfl, rfl⟩⟩⟩⟩

/-- C3, as stated, fails: the array of `2 ^ 32` copies of the point `(1, 0)` has a good
entry at index 0, but `(unsigned int)RARRAY_LEN(array)` is `0`, and the sequence built
from it is empty: it has no coordinate 0. -/
theorem coord_seq_from_array_empty_for_wrapped_length :
    (List.replicate (2 ^ 32) (point_obj 1 1 0 0))[0]? = some (point_obj 1 1 0 0) ∧
    entry_coord Converter.points factory_2d (point_obj 1 1 0 0) = some (coord_of 1 0 0) ∧
    coord_seq_from_array Converter.points factory_2d
      (List.replicate (2 ^ 32) (point_obj 1 1 0 0)) false = some [] := by
  refine ⟨?_, by decide, ?_⟩
  · rw [List.getElem?_replicate, if_pos (by decide)]
  · rw [coord_seq_from_array_wrapped _ _ _ _
      (by rw [List.length_replicate]; exact Nat.mod_self _)]
    rfl

/-- C3 (amended): for an array whose entries all convert and whose length the
`unsigned int` index arithmetic holds (`len * dims < 2 ^ 32`), the sequence built by `coord_seq_from_array` exists whenever the engine
creates it, and its coordinate `i` holds the x and the y read from entry `i` and, when
the factory enables z, the z read from entry `i`; when the factory does not enable z,
every coordinate of the sequence (an appended closing one included) has z `0`. -/
theorem coord_seq_from_array_coords (convert : Converter) (factory : RGeo_FactoryData)
    (array : List VALUE) (close : Bool)
    (hlen : array.length * dims_of (has_z_of factory) < 2 ^ 32)
    (hgood : ∀ v, v ∈ array → entry_coord convert factory v ≠ none) :
    ((∀ n, factory.geos_context.fails (.coordSeqCreate n 3) = false) →
      ∃ seq, coord_seq_from_array convert factory array close = some seq) ∧
    ∀ seq, coord_seq_from_array convert factory array close = some seq →
      (∀ (i : Nat) (v : VALUE) entry_geom entry_cs x y, array[i]? = some v →
        convert factory v .rgeo_feature_point_module = some entry_geom →
        GEOSGeom_getCoordSeq_r factory.geos_context entry_geom = some entry_cs →
        GEOSCoordSeq_getX_r factory.geos_context entry_cs 0 = some x →
        GEOSCoordSeq_getY_r factory.geos_context entry_cs 0 = some y →
        ∃ c : Coord, seq[i]? = some c ∧ c.x = x ∧ c.y = y ∧
          (has_z_of factory = true →
            GEOSCoordSeq_getZ_r factory.geos_context entry_cs 0 = some c.z) ∧
          (has_z_of factory = false → c.z = Double.zero)) ∧
      (has_z_of factory = false → ∀ c, c ∈ seq → c.z = Double.zero) := by
  have hconv := good_entries_points convert factory array hgood
  have hchar := coord_seq_from_array_points convert factory array close _ hlen hconv
  refine ⟨fun hc => ?_, fun seq hseq => ?_⟩
  · rw [hchar, hc]; exact ⟨_, rfl⟩
  · rw [hchar] at hseq
    split at hseq
    · cases hseq
    · simp only [Option.some.injEq] at hseq
      have hzall : has_z_of factory = false → ∀ c, c ∈ seq → c.z = Double.zero := by
        intro hz c hc
        have hmem : c ∈ array.map (fun v => (entry_coord convert factory v).getD
            ⟨Double.zero, Double.zero, Double.zero⟩) := by
          rw [← hseq] at hc
          rcases List.mem_append.mp hc with h | h
          · exact h
          · split at h
            · exact List.mem_of_mem_take h
            · cases h
        obtain ⟨v, hv, rfl⟩ := List.mem_map.mp hmem
        cases he : entry_coord convert factory v with
        | none => exact absurd he (hgood v hv)
        | some c' => exact entry_coord_z convert factory v c' he hz
      refine ⟨?_, hzall⟩
      intro i v entry_geom entry_cs x y hi h1 h2 h3 h4
      have hilt : i < array.length := by
        rcases Nat.lt_or_ge i array.length with h | h
        · exact h
        · rw [List.getElem?_eq_none h] at hi; cases hi
      have hv : v ∈ array := List.getElem?_mem hi
      have hsi : seq[i]? = some ((entry_coord convert factory v).getD
          ⟨Double.zero, Double.zero, Double.zero⟩) := by
        rw [← hseq, List.getElem?_append_left (by simpa using hilt), List.getElem?_map, hi]
        rfl
      cases he : entry_coord convert factory v with
      | none => exact absurd he (hgood v hv)
      | some c =>
        rw [he] at hsi
        refine ⟨c, hsi, ?_⟩
        unfold entry_coord at he
        simp only [h1, h2, h3, h4] at he
        cases hz : has_z_of factory with
        | false =>
          simp only [hz, Bool.false_eq_true, if_false, Option.some.injEq] at he
          subst he
          exact ⟨rfl, rfl, (fun h => by cases h), fun _ => rfl⟩
        | true =>
          simp only [hz, if_true] at he
          cases hzr : GEOSCoordSeq_getZ_r factory.geos_context entry_cs 0 with
          | none => rw [hzr] at he; cases he
          | some z =>
            rw [hzr] at he
            simp only [Option.map_some', Option.some.injEq] at he
            subst he
            exact ⟨rfl, rfl, (fun _ => rfl), (fun h => by cases h)⟩

/-- C3 (amended), at a concrete input: with z enabled the three points keep their z; the sequence
of `(0,0,1), (1,0,2), (1,1,3)` has `(1,0,2)` at index 1. -/
theorem coord_seq_from_array_coords_witness :
    [point_obj 2 0 0 1, point_obj 2 1 0 2, point_obj 2 1 1 3].length *
        dims_of (has_z_of factory_3d) < 2 ^ 32 ∧
      (∀ v, v ∈ [point_obj 2 0 0 1, point_obj 2 1 0 2, point_obj 2 1 1 3] →
        entry_coord Converter.points factory_3d v ≠ none) ∧
      ∃ seq, coord_seq_from_array Converter.points factory_3d
          [point_obj 2 0 0 1, point_obj 2 1 0 2, point_obj 2 1 1 3] false = some seq ∧
        ∃ c : Coord, seq[1]? = some c ∧ c.x = Double.ofSmall 1 ∧ c.y = Double.ofSmall 0 ∧
          (has_z_of factory_3d = true → some (Double.ofSmall 2) = some c.z) :=
  ⟨by decide, by decide, by
    have h := coord_seq_from_array_coords Converter.points factory_3d
      [point_obj 2 0 0 1, point_obj 2 1 0 2, point_obj 2 1 1 3] false (by decide) (by decide)
    obtain ⟨seq, hseq⟩ := h.1 (fun _ => rfl)
    obtain ⟨c, hc1, hc2, hc3, hc4, _⟩ := (h.2 seq hseq).1 1 (point_obj 2 1 0 2)
      ⟨.point, [coord_of 1 0 2]⟩ [coord_of 1 0 2] (Double.ofSmall 1) (Double.ofSmall 0)
      rfl rfl rfl rfl rfl
    exact ⟨seq, hseq, c, hc1, hc2, hc3, hc4⟩⟩

/-- C4, as stated, fails: in the array of `2 ^ 32` entries `nil` no entry converts to a
point, but `(unsigned int)RARRAY_LEN(array)` is `0`, no entry is looked at, and
`coord_seq_from_array` returns the empty sequence instead of `NULL`. -/
theorem coord_seq_from_array_not_null_for_wrapped_length :
    (List.replicate (2 ^ 32) VALUE.Qnil)[0]? = some VALUE.Qnil ∧
    Converter.points factory_2d VALUE.Qnil .rgeo_feature_point_module = none ∧
    entry_coord Converter.points factory_2d VALUE.Qnil = none ∧
    coord_seq_from_array Converter.points factory_2d
      (List.replicate (2 ^ 32) VALUE.Qnil) true = some [] := by
  refine ⟨?_, by decide, by decide, ?_⟩
  · rw [List.getElem?_replicate, if_pos (by decide)]
  · rw [coord_seq_from_array_wrapped _ _ _ _
      (by rw [List.length_replicate]; exact Nat.mod_self _)]
    rfl

/-- C4 (amended): construction from an array whose length the `unsigned int` index
arithmetic holds (`len * dims < 2 ^ 32`) is all-or-nothing. If some entry does not convert to a point geometry, or has no
coordinate sequence, or its x, its y, or (when the factory enables z) its z cannot be
read, `coord_seq_from_array` returns `NULL`, whatever the other entries and the close
flag are; and if no entry fails and the engine creates the sequence, a sequence is
returned. -/
theorem coord_seq_from_array_all_or_nothing (convert : Converter)
    (factory : RGeo_FactoryData) (array : List VALUE) (close : Bool)
    (hlen : array.length * dims_of (has_z_of factory) < 2 ^ 32) :
    (∀ (i : Nat) (v : VALUE), array[i]? = some v →
      (convert factory v .rgeo_feature_point_module = none ∨
       ∃ g, convert factory v .rgeo_feature_point_module = some g ∧
        (GEOSGeom_getCoordSeq_r factory.geos_context g = none ∨
         ∃ cs, GEOSGeom_getCoordSeq_r factory.geos_context g = some cs ∧
          (GEOSCoordSeq_getX_r factory.geos_context cs 0 = none ∨
           GEOSCoordSeq_getY_r factory.geos_context cs 0 = none ∨
           (has_z_of factory = true ∧
             GEOSCoordSeq_getZ_r factory.geos_context cs 0 = none)))) →
      coord_seq_from_array convert factory array close = none) ∧
    ((∀ v, v ∈ array → entry_coord convert factory v ≠ none) →
      (∀ n, factory.geos_context.fails (.coordSeqCreate n 3) = false) →
      ∃ seq, coord_seq_from_array convert factory array close = some seq) := by
  have hd : 2 ≤ dims_of (has_z_of factory) := by unfold dims_of; split <;> omega
  have hn : array.length < 2 ^ 32 := by
    have : array.length * 2 ≤ array.length * dims_of (has_z_of factory) :=
      Nat.mul_le_mul_left _ hd
    omega
  refine ⟨fun i v hi hfail => ?_, fun hgood hc => ?_⟩
  · exact coord_seq_from_array_bad convert factory array close hn
      ⟨v, List.getElem?_mem hi, (entry_coord_eq_none_iff convert factory v).mpr hfail⟩
  · rw [coord_seq_from_array_points convert factory array close _ hlen
      (good_entries_points convert factory array hgood), hc]
    exact ⟨_, rfl⟩

/-- C4 (amended), at a concrete input: a `nil` entry after a good point makes the construction
return `NULL`. -/
theorem coord_seq_from_array_all_or_nothing_witness :
    [point_obj 1 0 0 0, VALUE.Qnil].length * dims_of (has_z_of factory_2d) < 2 ^ 32 ∧
      coord_seq_from_array Converter.points factory_2d [point_obj 1 0 0 0, VALUE.Qnil] true =
        none :=
  ⟨by decide,
    (coord_seq_from_array_all_or_nothing Converter.points factory_2d
      [point_obj 1 0 0 0, VALUE.Qnil] true (by decide)).1 1 VALUE.Qnil rfl (Or.inl rfl)⟩

/-! ## Claims about copying, `point_n` and the closed test -/

/-- C5: for a present source geometry `g` whose coordinate sequence the engine hands out,
clones and wraps, `impl_copy_from` with the Line target (subtype 1) produces no geometry
if and only if the engine's coordinate count of `g` differs from 2 (the count is the
number of stored coordinates when the count call succeeds); with the LineString (0) and
LinearRing (2) targets it produces a geometry whatever the count is; and every produced
copy holds the coordinate sequence of `g`. -/
theorem impl_copy_from_line_iff (klass : RModule) (factory : RGeo_FactoryData)
    (original : RGeo_GeometryData) (g : GEOSGeometry)
    (hg : original.geom = some g)
    (hcs : factory.geos_context.fails (.getCoordSeq g) = false)
    (hclone : factory.geos_context.fails (.coordSeqClone g.coordSeq) = false)
    (hls : factory.geos_context.fails (.createLineString g.coordSeq) = false)
    (hlr : factory.geos_context.fails (.createLinearRing g.coordSeq) = false) :
    (impl_copy_from klass factory original 1 = .Qnil ↔
      GEOSGetNumCoordinates_r factory.geos_context g ≠ 2) ∧
    (factory.geos_context.fails (.getNumCoordinates g) = false →
      (impl_copy_from klass factory original 1 = .Qnil ↔ g.coordSeq.length ≠ 2)) ∧
    (GEOSGetNumCoordinates_r factory.geos_context g = 2 →
      impl_copy_from klass factory original 1 =
        .object klass factory.id (some ⟨.lineString, g.coordSeq⟩)) ∧
    impl_copy_from klass factory original 0 =
      .object klass factory.id (some ⟨.lineString, g.coordSeq⟩) ∧
    impl_copy_from klass factory original 2 =
      .object klass factory.id (some ⟨.linearRing, g.coordSeq⟩) := by
  have h1 : ∀ (hc : GEOSGetNumCoordinates_r factory.geos_context g = 2),
      impl_copy_from klass factory original 1 =
        .object klass factory.id (some ⟨.lineString, g.coordSeq⟩) := by
    intro hc
    simp [impl_copy_from, hg, hc, GEOSGeom_getCoordSeq_r, hcs, GEOSCoordSeq_clone_r, hclone,
      GEOSGeom_createLineString_r, hls, rgeo_wrap_geos_geometry]
  have h2 : ∀ (hc : GEOSGetNumCoordinates_r factory.geos_context g ≠ 2),
      impl_copy_from klass factory original 1 = .Qnil := by
    intro hc
    simp [impl_copy_from, hg, hc]
  have h3 : impl_copy_from klass factory original 1 = .Qnil ↔
      GEOSGetNumCoordinates_r factory.geos_context g ≠ 2 := by
    constructor
    · intro h hc
      rw [h1 hc] at h
      cases h
    · exact h2
  refine ⟨h3, ?_, h1, ?_, ?_⟩
  · intro hnc
    rw [h3]
    simp only [GEOSGetNumCoordinates_r, hnc, Bool.false_eq_true, if_false, ne_eq]
    constructor
    · intro h e; apply h; rw [e]; rfl
    · intro h e; apply h; exact_mod_cast e
  · simp [impl_copy_from, hg, GEOSGeom_getCoordSeq_r, hcs, GEOSCoordSeq_clone_r, hclone,
      GEOSGeom_createLineString_r, hls, rgeo_wrap_geos_geometry]
  · simp [impl_copy_from, hg, GEOSGeom_getCoordSeq_r, hcs, GEOSCoordSeq_clone_r, hclone,
      GEOSGeom_createLinearRing_r, hlr, rgeo_wrap_geos_geometry]

/-- C5, at a concrete input: a line string of three coordinates is not copied into a
Line, and is copied into a LinearRing with its coordinates. -/
theorem impl_copy_from_line_iff_witness :
    impl_copy_from .rgeo_geos_line_class factory_2d
        ⟨GEOSContext.reliable,
          some ⟨.lineString, [coord_of 0 0 0, coord_of 1 0 0, coord_of 0 0 0]⟩, factory_2d,
          .rgeo_geos_line_string_class⟩ 1 = .Qnil ∧
      impl_copy_from .rgeo_geos_linear_ring_class factory_2d
        ⟨GEOSContext.reliable,
          some ⟨.lineString, [coord_of 0 0 0, coord_of 1 0 0, coord_of 0 0 0]⟩, factory_2d,
          .rgeo_geos_line_string_class⟩ 2 =
        .object .rgeo_geos_linear_ring_class 1
          (some ⟨.linearRing, [coord_of 0 0 0, coord_of 1 0 0, coord_of 0 0 0]⟩) :=
  ⟨((impl_copy_from_line_iff .rgeo_geos_line_class factory_2d
      ⟨GEOSContext.reliable,
        some ⟨.lineString, [coord_of 0 0 0, coord_of 1 0 0, coord_of 0 0 0]⟩, factory_2d,
        .rgeo_geos_line_string_class⟩
      ⟨.lineString, [coord_of 0 0 0, coord_of 1 0 0, coord_of 0 0 0]⟩
      rfl rfl rfl rfl rfl).2.1 rfl).mpr (by decide),
   (impl_copy_from_line_iff .rgeo_geos_linear_ring_class factory_2d
      ⟨GEOSContext.reliable,
        some ⟨.lineString, [coord_of 0 0 0, coord_of 1 0 0, coord_of 0 0 0]⟩, factory_2d,
        .rgeo_geos_line_string_class⟩
      ⟨.lineString, [coord_of 0 0 0, coord_of 1 0 0, coord_of 0 0 0]⟩
      rfl rfl rfl rfl rfl).2.2.2.2⟩

/-- C6, as stated, fails: on the segment `(0,0,1), (1,0,2)`, `N = 2`, the integer
`n = 2 ^ 31` is at least `N`, but `NUM2INT(n)` runs before the range tests and raises
`RangeError`: `method_line_string_point_n` does not return `nil`. -/
theorem point_n_raises_beyond_int :
    method_line_string_point_n
        ⟨GEOSContext.reliable, some ⟨.lineString, [coord_of 0 0 1, coord_of 1 0 2]⟩,
          factory_3d, .rgeo_geos_line_class⟩ (2 ^ 31) = .error .RangeError := by
  rfl

/-- C6 (amended): for a geometry whose coordinate sequence has `N` coordinates and every
integer `n` that fits a C `int`: when `n < 0` or `n ≥ N`, `method_line_string_point_n`
returns `nil`; when `0 ≤ n < N` (the sequence handed out and the size, x and y reads
succeeding) it returns the point built from the x and y stored at index `n` and from the
stored z if the factory enables z and the z read succeeds, else from `0.0`. For an
integer that does not fit a C `int`, `NUM2INT` raises `RangeError` when the engine hands
out the sequence (and `nil` is returned when it does not). -/
theorem method_line_string_point_n_spec (self : RGeo_GeometryData) (g : GEOSGeometry)
    (n : Int) (hg : self.geom = some g) :
    (-2 ^ 31 ≤ n → n < 2 ^ 31 → (n < 0 ∨ (g.coordSeq.length : Int) ≤ n) →
      method_line_string_point_n self n = .ok .Qnil) ∧
    (¬ (-2 ^ 31 ≤ n ∧ n < 2 ^ 31) →
      (self.geos_context.fails (.getCoordSeq g) = false →
        method_line_string_point_n self n = .error .RangeError) ∧
      (self.geos_context.fails (.getCoordSeq g) = true →
        method_line_string_point_n self n = .ok .Qnil)) ∧
    (∀ c : Coord, 0 ≤ n → n < 2 ^ 31 → g.coordSeq[n.toNat]? = some c →
      self.geos_context.fails (.getCoordSeq g) = false →
      self.geos_context.fails (.getSize g.coordSeq) = false →
      self.geos_context.fails (.getX g.coordSeq n.toNat) = false →
      self.geos_context.fails (.getY g.coordSeq n.toNat) = false →
      method_line_string_point_n self n =
        .ok (rgeo_create_geos_point self.factory c.x c.y
          (if has_z_of self.factory = true ∧
              self.geos_context.fails (.getZ g.coordSeq n.toNat) = false
           then c.z else Double.zero))) := by
  refine ⟨?_, ?_, ?_⟩
  · intro h1 h2 hn
    unfold method_line_string_point_n
    simp only [hg]
    cases hcs : GEOSGeom_getCoordSeq_r self.geos_context g with
    | none => rfl
    | some cs =>
      have hcseq : cs = g.coordSeq := by
        unfold GEOSGeom_getCoordSeq_r at hcs
        split at hcs
        · cases hcs
        · cases hcs; rfl
      subst hcseq
      simp only [NUM2INT, h1, h2, and_self, if_true]
      by_cases hneg : n < 0
      · have : ¬ n ≥ 0 := by omega
        simp [this]
      · have hge : n ≥ 0 := by omega
        have hle : (g.coordSeq.length : Int) ≤ n := by omega
        simp only [hge, if_true]
        cases hsz : GEOSCoordSeq_getSize_r self.geos_context g.coordSeq with
        | none => rfl
        | some size =>
          have hsize : size = g.coordSeq.length := by
            unfold GEOSCoordSeq_getSize_r at hsz
            split at hsz
            · cases hsz
            · cases hsz; rfl
          have hu : int_to_uint n = n.toNat := by
            unfold int_to_uint
            rw [Int.emod_eq_of_lt hge (by omega)]
          have : ¬ int_to_uint n < size := by
            rw [hu, hsize]; omega
          simp [this]
  · intro hr
    constructor
    · intro f1
      unfold method_line_string_point_n
      simp only [hg, GEOSGeom_getCoordSeq_r, f1, Bool.false_eq_true, if_false, NUM2INT, hr]
    · intro f1
      unfold method_line_string_point_n
      simp only [hg, GEOSGeom_getCoordSeq_r, f1, if_true]
  · intro c h0 h2 hc f1 f2 f3 f4
    have hlt : n.toNat < g.coordSeq.length := by
      rcases Nat.lt_or_ge n.toNat g.coordSeq.length with h | h
      · exact h
      · rw [List.getElem?_eq_none h] at hc; cases hc
    have hu : int_to_uint n = n.toNat := by
      unfold int_to_uint
      rw [Int.emod_eq_of_lt h0 (by omega)]
    have hr : -2 ^ 31 ≤ n ∧ n < 2 ^ 31 := ⟨by omega, h2⟩
    unfold method_line_string_point_n get_point_from_coordseq
    simp only [hg, GEOSGeom_getCoordSeq_r, f1, Bool.false_eq_true, if_false, NUM2INT, hr,
      GEOSCoordSeq_getSize_r, f2, GEOSCoordSeq_getX_r,
      GEOSCoordSeq_getY_r, GEOSCoordSeq_getZ_r]
    simp only [and_self, if_true, ge_iff_le, h0, hu, hlt, f3, f4, hc, Option.map_some',
      Bool.false_eq_true, if_false]
    congr 2
    cases hz : has_z_of self.factory with
    | false => simp
    | true =>
      cases hfz : self.geos_context.fails (.getZ g.coordSeq n.toNat) with
      | false => simp
      | true => simp

/-- C6 (amended), at a concrete input: on the segment `(0,0,1), (1,0,2)` of a factory
with z, `point_n(1)` is the point `(1,0,2)`, and `point_n(2)` and `point_n(-1)` are
`nil`. -/
theorem method_line_string_point_n_spec_witness :
    method_line_string_point_n
        ⟨GEOSContext.reliable, some ⟨.lineString, [coord_of 0 0 1, coord_of 1 0 2]⟩,
          factory_3d, .rgeo_geos_line_class⟩ 1 =
      .ok (point_obj 2 1 0 2) ∧
    method_line_string_point_n
        ⟨GEOSContext.reliable, some ⟨.lineString, [coord_of 0 0 1, coord_of 1 0 2]⟩,
          factory_3d, .rgeo_geos_line_class⟩ 2 = .ok .Qnil ∧
    method_line_string_point_n
        ⟨GEOSContext.reliable, some ⟨.lineString, [coord_of 0 0 1, coord_of 1 0 2]⟩,
          factory_3d, .rgeo_geos_line_class⟩ (-1) = .ok .Qnil :=
  ⟨(method_line_string_point_n_spec
      ⟨GEOSContext.reliable, some ⟨.lineString, [coord_of 0 0 1, coord_of 1 0 2]⟩,
        factory_3d, .rgeo_geos_line_class⟩ ⟨.lineString, [coord_of 0 0 1, coord_of 1 0 2]⟩
      1 rfl).2.2 (coord_of 1 0 2) (by decide) (by decide) rfl rfl rfl rfl rfl,
   (method_line_string_point_n_spec
      ⟨GEOSContext.reliable, some ⟨.lineString, [coord_of 0 0 1, coord_of 1 0 2]⟩,
        factory_3d, .rgeo_geos_line_class⟩ ⟨.lineString, [coord_of 0 0 1, coord_of 1 0 2]⟩
      2 rfl).1 (by decide) (by decide) (Or.inr (by decide)),
   (method_line_string_point_n_spec
      ⟨GEOSContext.reliable, some ⟨.lineString, [coord_of 0 0 1, coord_of 1 0 2]⟩,
        factory_3d, .rgeo_geos_line_class⟩ ⟨.lineString, [coord_of 0 0 1, coord_of 1 0 2]⟩
      (-1) rfl).1 (by decide) (by decide) (Or.inl (by decide))⟩

/-- C7: `rgeo_is_geos_line_string_closed` returns no value when the sequence is empty,
whatever the engine does; so the sequence built from the empty array with closing
requested has size 0 and the closed test on the ring holding it reports no value. When
the sequence has `N > 0` coordinates and the reads succeed, it returns true if and only
if the x and the y of coordinate 0 equal the x and the y of coordinate `N - 1` under C
`==`, and false otherwise; z takes no part: rewriting every z leaves the result as it
is. -/
theorem rgeo_is_geos_line_string_closed_spec (context : GEOSContext) (geom : GEOSGeometry) :
    (geom.coordSeq = [] → rgeo_is_geos_line_string_closed context geom = .Qnil) ∧
    (∀ (convert : Converter) (factory : RGeo_FactoryData),
      factory.geos_context.fails (.coordSeqCreate 0 3) = false →
      coord_seq_from_array convert factory [] true = some [] ∧
      method_line_string_is_closed
        ⟨context, some ⟨.linearRing, []⟩, factory, .rgeo_geos_linear_ring_class⟩ = .Qnil) ∧
    (∀ first last : Coord, geom.coordSeq.length < 2 ^ 31 →
      closed_reads_succeed context geom →
      geom.coordSeq.head? = some first → geom.coordSeq.getLast? = some last →
      (rgeo_is_geos_line_string_closed context geom = .Qtrue ↔
        (first.x.ceq last.x = true ∧ first.y.ceq last.y = true)) ∧
      (¬ (first.x.ceq last.x = true ∧ first.y.ceq last.y = true) →
        rgeo_is_geos_line_string_closed context geom = .Qfalse) ∧
      ∀ (fz : Coord → Double) (geom2 : GEOSGeometry),
        geom2.coordSeq = geom.coordSeq.map (fun c => { c with z := fz c }) →
        closed_reads_succeed context geom2 →
        rgeo_is_geos_line_string_closed context geom2 =
          rgeo_is_geos_line_string_closed context geom) := by
  refine ⟨is_closed_empty context geom, fun convert factory hc => ⟨?_, ?_⟩, ?_⟩
  · have := coord_seq_from_array_points convert factory [] true [] (by simp) rfl
    rw [this]
    simp [needs_closing_nil, hc]
  · exact is_closed_empty context ⟨.linearRing, []⟩ rfl
  · intro first last hn hr h1 h2
    have hn32 : geom.coordSeq.length < 2 ^ 32 := by omega
    have hval := is_closed_eq context geom hn32 hr
    rw [h1, h2] at hval
    simp only at hval
    refine ⟨?_, ?_, ?_⟩
    · rw [hval]
      by_cases hxy : xy_ceq first last = true
      · have := hxy
        simp only [xy_ceq, Bool.and_eq_true] at this
        simp [hxy, this]
      · have := hxy
        simp only [xy_ceq, Bool.and_eq_true] at this
        simp [hxy, this]
    · intro hne
      rw [hval]
      have : ¬ xy_ceq first last = true := by
        simp only [xy_ceq, Bool.and_eq_true]
        exact hne
      simp [this]
    · intro fz geom2 hg2 hr2
      have hlen2 : geom2.coordSeq.length < 2 ^ 32 := by
        rw [hg2, List.length_map]; exact hn32
      rw [is_closed_eq context geom2 hlen2 hr2, hval, hg2, List.head?_map, List.getLast?_map,
        h1, h2]
      simp [xy_ceq]

/-- C7, at a concrete input: the closed square `(0,0), (1,0), (1,1), (0,0)` whose first
and last z differ passes the closed test. -/
theorem rgeo_is_geos_line_string_closed_spec_witness :
    rgeo_is_geos_line_string_closed GEOSContext.reliable
      ⟨.linearRing, [coord_of 0 0 1, coord_of 1 0 0, coord_of 1 1 0, coord_of 0 0 2]⟩ =
        .Qtrue :=
  (((rgeo_is_geos_line_string_closed_spec GEOSContext.reliable
      ⟨.linearRing, [coord_of 0 0 1, coord_of 1 0 0, coord_of 1 1 0, coord_of 0 0 2]⟩).2.2
      (coord_of 0 0 1) (coord_of 0 0 2) (by decide) ⟨rfl, rfl, fun _ => ⟨rfl, rfl⟩⟩
      rfl rfl).1).mpr ⟨by decide, by decide⟩

/-! ## Claims about equality and hashing -/

theorem rb_ary_store_append (ary : List VALUE) (i : Nat) (v : VALUE) (h : ary.length ≤ i) :
    rb_ary_store ary i v = ary ++ List.replicate (i - ary.length) .Qnil ++ [v] := by
  unfold rb_ary_store
  have : ¬ i < ary.length := by omega
  simp [this]

/-- The loop of `method_line_string_points`, started at index `i` with an array no longer
than `i`: old entries stay, indices skipped before a later store hold `nil`, and index
`k ≥ i` below the final length holds what `get_point_from_coordseq` returned for `k`. -/
theorem points_loop_spec (self : RGeo_GeometryData) (cs : GEOSCoordSequence) (has_z : Bool) :
    ∀ (count i : Nat) (r : List VALUE), r.length ≤ i →
      r.length ≤ (points_loop self cs has_z count i r).length ∧
      (points_loop self cs has_z count i r).length ≤ i + count ∧
      (∀ k, k < r.length → (points_loop self cs has_z count i r)[k]? = r[k]?) ∧
      (∀ k, r.length ≤ k → k < i → k < (points_loop self cs has_z count i r).length →
        (points_loop self cs has_z count i r)[k]? = some .Qnil) ∧
      (∀ k, i ≤ k → k < (points_loop self cs has_z count i r).length →
        (points_loop self cs has_z count i r)[k]? =
          some (get_point_from_coordseq self cs k has_z)) ∧
      (∀ j, i ≤ j → j < i + count → get_point_from_coordseq self cs j has_z ≠ .Qnil →
        j < (points_loop self cs has_z count i r).length) ∧
      (r.length < (points_loop self cs has_z count i r).length →
        i < (points_loop self cs has_z count i r).length ∧
        get_point_from_coordseq self cs
          ((points_loop self cs has_z count i r).length - 1) has_z ≠ .Qnil) := by
  intro count
  induction count with
  | zero =>
    intro i r hr
    have h0 : points_loop self cs has_z 0 i r = r := rfl
    rw [h0]
    refine ⟨Nat.le_refl _, by omega, fun _ _ => rfl, ?_, ?_, ?_, ?_⟩
    · intro k h1 h2 h3; omega
    · intro k h1 h2; omega
    · intro j h1 h2; omega
    · intro h; omega
  | succ n ih =>
    intro i r hr
    by_cases hp : get_point_from_coordseq self cs i has_z = .Qnil
    · have hstep : points_loop self cs has_z (n + 1) i r =
          points_loop self cs has_z n (i + 1) r := by
        simp [points_loop, hp]
      rw [hstep]
      obtain ⟨a1, a2, a3, a4, a5, a6, a7⟩ := ih (i + 1) r (by omega)
      refine ⟨a1, by omega, a3, ?_, ?_, ?_, ?_⟩
      · intro k h1 h2 h3
        exact a4 k h1 (by omega) h3
      · intro k h1 h2
        rcases Nat.eq_or_lt_of_le h1 with e | e
        · subst e
          rw [a4 i hr (by omega) h2, hp]
        · exact a5 k (by omega) h2
      · intro j h1 h2 h3
        rcases Nat.eq_or_lt_of_le h1 with e | e
        · subst e; exact absurd hp h3
        · exact a6 j (by omega) (by omega) h3
      · intro h
        obtain ⟨b1, b2⟩ := a7 h
        exact ⟨by omega, b2⟩
    · have hstep : points_loop self cs has_z (n + 1) i r =
          points_loop self cs has_z n (i + 1)
            (r ++ List.replicate (i - r.length) .Qnil ++
              [get_point_from_coordseq self cs i has_z]) := by
        simp [points_loop, hp, rb_ary_store_append _ _ _ hr]
      rw [hstep]
      have hlen : (r ++ List.replicate (i - r.length) VALUE.Qnil ++
          [get_point_from_coordseq self cs i has_z]).length = i + 1 := by
        simp; omega
      obtain ⟨a1, a2, a3, a4, a5, a6, a7⟩ := ih (i + 1)
        (r ++ List.replicate (i - r.length) .Qnil ++
          [get_point_from_coordseq self cs i has_z]) (by rw [hlen])
      rw [hlen] at a1 a3 a4 a7
      refine ⟨by omega, by omega, ?_, ?_, ?_, ?_, ?_⟩
      · intro k hk
        rw [a3 k (by omega), List.append_assoc, List.getElem?_append_left hk]
      · intro k h1 h2 h3
        rw [a3 k (by omega), List.getElem?_append_left (by simp; omega),
          List.getElem?_append_right h1, List.getElem?_replicate]
        have : k - r.length < i - r.length := by omega
        simp [this]
      · intro k h1 h2
        rcases Nat.eq_or_lt_of_le h1 with e | e
        · subst e
          rw [a3 i (by omega), List.getElem?_append_right (by simp; omega)]
          have : i - (r ++ List.replicate (i - r.length) VALUE.Qnil).length = 0 := by
            simp; omega
          rw [this]; rfl
        · exact a5 k (by omega) h2
      · intro j h1 h2 h3
        rcases Nat.eq_or_lt_of_le h1 with e | e
        · subst e; omega
        · exact a6 j (by omega) (by omega) h3
      · intro _
        refine ⟨by omega, ?_⟩
        rcases Nat.eq_or_lt_of_le a1 with e | e
        · rw [← e]; simpa using hp
        · exact (a7 e).2

/-- C9, as stated, fails: on the segment `(0,0,1), (1,0,1)` with an engine whose x read
fails at index 0 only, the point of index 0 does not build, the point of index 1 does,
and `method_line_string_points` returns an array of length 2 whose entry 0 is `nil`: the
failed index keeps a placeholder and the length is not the number of built points. -/
theorem points_keeps_nil_for_failed_index :
    get_point_from_coordseq
        ⟨GEOSContext.failing_first_x, some ⟨.lineString, [coord_of 0 0 1, coord_of 1 0 1]⟩,
          factory_3d, .rgeo_geos_line_string_class⟩
        [coord_of 0 0 1, coord_of 1 0 1] 0 true = .Qnil ∧
    method_line_string_points
        ⟨GEOSContext.failing_first_x, some ⟨.lineString, [coord_of 0 0 1, coord_of 1 0 1]⟩,
          factory_3d, .rgeo_geos_line_string_class⟩ =
      some [.Qnil, point_obj 2 1 0 1] := by
  decide

/-- C9 (amended): for a geometry whose sequence (of size `N`) and size the engine hands
out, `method_line_string_points` returns an array `pts` of length at most `N` in which
every index below the length holds what `get_point_from_coordseq` returns for that
index (the point when it builds, `nil` when it fails), every index that builds is below
the length, and the last entry, if any, is a built point: a failed index is left out only
when no later index builds. -/
theorem method_line_string_points_spec (self : RGeo_GeometryData) (g : GEOSGeometry)
    (hg : self.geom = some g)
    (hcs : self.geos_context.fails (.getCoordSeq g) = false)
    (hsz : self.geos_context.fails (.getSize g.coordSeq) = false) :
    ∃ pts, method_line_string_points self = some pts ∧
      pts.length ≤ g.coordSeq.length ∧
      pts = (List.range pts.length).map
        (fun i => get_point_from_coordseq self g.coordSeq i (has_z_of self.factory)) ∧
      (∀ i, i < g.coordSeq.length →
        get_point_from_coordseq self g.coordSeq i (has_z_of self.factory) ≠ .Qnil →
        i < pts.length) ∧
      (pts ≠ [] →
        get_point_from_coordseq self g.coordSeq (pts.length - 1) (has_z_of self.factory) ≠
          .Qnil) := by
  obtain ⟨a1, a2, a3, a4, a5, a6, a7⟩ := points_loop_spec self g.coordSeq
    (has_z_of self.factory) g.coordSeq.length 0 [] (Nat.le_refl _)
  refine ⟨points_loop self g.coordSeq (has_z_of self.factory) g.coordSeq.length 0 [], ?_,
    by omega, ?_, ?_, ?_⟩
  · simp [method_line_string_points, hg, GEOSGeom_getCoordSeq_r, hcs, GEOSCoordSeq_getSize_r,
      hsz]
  · apply List.ext_getElem?
    intro k
    by_cases hk : k < (points_loop self g.coordSeq (has_z_of self.factory)
        g.coordSeq.length 0 []).length
    · rw [a5 k (Nat.zero_le _) hk]
      simp [List.getElem?_range, hk]
    · rw [List.getElem?_eq_none (by omega), List.getElem?_eq_none (by simp; omega)]
  · intro i hi hb
    exact a6 i (Nat.zero_le _) (by omega) hb
  · intro hne
    have : ([] : List VALUE).length < (points_loop self g.coordSeq (has_z_of self.factory)
        g.coordSeq.length 0 []).length := by
      cases hl : points_loop self g.coordSeq (has_z_of self.factory) g.coordSeq.length 0 [] with
      | nil => exact absurd hl hne
      | cons a t => simp
    exact (a7 this).2

/-- C9 (amended), at a concrete input: with a reliable engine the two points of a segment
come back in index order. -/
theorem method_line_string_points_spec_witness :
    ∃ pts, method_line_string_points
        ⟨GEOSContext.reliable, some ⟨.lineString, [coord_of 0 0 1, coord_of 1 0 1]⟩,
          factory_3d, .rgeo_geos_line_string_class⟩ = some pts ∧
      pts.length ≤ 2 ∧ (1 < pts.length) :=
  match method_line_string_points_spec
      ⟨GEOSContext.reliable, some ⟨.lineString, [coord_of 0 0 1, coord_of 1 0 1]⟩,
        factory_3d, .rgeo_geos_line_string_class⟩
      ⟨.lineString, [coord_of 0 0 1, coord_of 1 0 1]⟩ rfl rfl rfl with
  | ⟨pts, h1, h2, _, h4, _⟩ => ⟨pts, h1, h2, h4 1 (by decide) (by decide)⟩

/-- C10, evaluated on an engine in which every call fails: `method_line_string_length` and
`method_line_string_is_ring` return no value, but `method_line_string_project_point`,
given an argument that does not convert to a point, forwards `NULL` to the engine and
returns the Float `-1.0` the failed projection yields. -/
theorem project_point_returns_number_on_failure :
    method_line_string_length
        ⟨GEOSContext.failing, some ⟨.lineString, [coord_of 0 0 0, coord_of 1 1 0]⟩,
          factory_2d, .rgeo_geos_line_string_class⟩ = .Qnil ∧
    method_line_string_is_ring
        ⟨GEOSContext.failing, some ⟨.lineString, [coord_of 0 0 0, coord_of 1 1 0]⟩,
          factory_2d, .rgeo_geos_line_string_class⟩ = .Qnil ∧
    Converter.points factory_2d .Qnil .rgeo_geos_point_class = none ∧
    method_line_string_project_point Converter.points
        ⟨GEOSContext.failing, some ⟨.lineString, [coord_of 0 0 0, coord_of 1 1 0]⟩,
          factory_2d, .rgeo_geos_line_string_class⟩ .Qnil = .float Double.minusOne := by
  decide

/-! ## The closing coordinate -/

/-- C11, as stated, fails: with z enabled, the open triangle `(0,0,1), (1,0,2), (1,1,3)`
is closed by appending `(0,0,1)`: the appended coordinate has the first point's z, `1`,
not `0`. -/
theorem closing_coord_inherits_first_z :
    has_z_of factory_3d = true ∧
    coord_seq_from_array Converter.points factory_3d
        [point_obj 2 0 0 1, point_obj 2 1 0 2, point_obj 2 1 1 3] true =
      some [coord_of 0 0 1, coord_of 1 0 2, coord_of 1 1 3, coord_of 0 0 1] ∧
    (coord_of 0 0 1).z ≠ Double.zero := by
  decide

/-- C11 (amended): whenever `coord_seq_from_array` appends a closing point (closing
requested, entries converting to the points `pts`, the first and the last point not
agreeing in x and y, the array length within the `unsigned int` index arithmetic), the
sequence exists when the engine creates it, has `len + 1` coordinates, and its appended
coordinate at index `len` takes the first point's x and y; its z is the first point's z
(the z read from the first entry) when the factory enables z, and `0` when it does
not. -/
theorem coord_seq_from_array_closing_coord (convert : Converter)
    (factory : RGeo_FactoryData) (array : List VALUE) (pts : List Coord)
    (first last : Coord)
    (hlen : array.length * dims_of (has_z_of factory) < 2 ^ 32)
    (hconv : array.map (entry_coord convert factory) = pts.map some)
    (hfirst : pts.head? = some first) (hlast : pts.getLast? = some last)
    (hdiff : xy_ceq first last = false) :
    ((∀ n, factory.geos_context.fails (.coordSeqCreate n 3) = false) →
      ∃ seq, coord_seq_from_array convert factory array true = some seq) ∧
    ∀ seq, coord_seq_from_array convert factory array true = some seq →
      seq.length = array.length + 1 ∧
      ∃ c : Coord, seq[array.length]? = some c ∧ c.x = first.x ∧ c.y = first.y ∧
        (has_z_of factory = true → c.z = first.z) ∧
        (has_z_of factory = false → c.z = Double.zero) ∧
        ∀ (v : VALUE) entry_geom entry_cs, array[0]? = some v →
          convert factory v .rgeo_feature_point_module = some entry_geom →
          GEOSGeom_getCoordSeq_r factory.geos_context entry_geom = some entry_cs →
          GEOSCoordSeq_getX_r factory.geos_context entry_cs 0 = some c.x ∧
          GEOSCoordSeq_getY_r factory.geos_context entry_cs 0 = some c.y ∧
          (has_z_of factory = true →
            GEOSCoordSeq_getZ_r factory.geos_context entry_cs 0 = some c.z) := by
  have hl : array.length = pts.length := by
    have := congrArg List.length hconv
    simpa using this
  have hchar := coord_seq_from_array_points convert factory array true pts hlen hconv
  have hnc : needs_closing pts = true :=
    (needs_closing_iff pts).mpr ⟨first, last, hfirst, hlast, hdiff⟩
  obtain ⟨t, rfl⟩ : ∃ t, pts = first :: t := by
    cases pts with
    | nil => simp at hfirst
    | cons a t =>
      simp only [List.head?_cons, Option.some.injEq] at hfirst
      exact ⟨t, by rw [hfirst]⟩
  refine ⟨fun hc => ?_, fun seq hseq => ?_⟩
  · rw [hchar, hc]; exact ⟨_, rfl⟩
  · rw [hchar] at hseq
    split at hseq
    · cases hseq
    · simp only [Bool.true_and, hnc, if_true, List.take_succ_cons, List.take_zero,
        Option.some.injEq] at hseq
      subst hseq
      refine ⟨by rw [hl]; simp, first, ?_, rfl, rfl, fun _ => rfl, ?_, ?_⟩
      · rw [hl, List.getElem?_append_right (Nat.le_refl _)]
        simp
      · intro hz
        have he : entry_coord convert factory (rb_ary_entry array 0) = some first := by
          have h0 := congrArg (fun l => l[0]?) hconv
          simp only [List.getElem?_map, List.map_cons, List.getElem?_cons_zero] at h0
          cases ha : array[0]? with
          | none => rw [ha] at h0; cases h0
          | some v =>
            rw [ha] at h0
            simp only [Option.map_some', Option.some.injEq] at h0
            simp only [rb_ary_entry, ha, Option.getD_some]
            exact h0
        exact entry_coord_z convert factory _ _ he hz
      · intro v entry_geom entry_cs hv h1 h2
        have he : entry_coord convert factory v = some first := by
          have h0 := congrArg (fun l => l[0]?) hconv
          simp only [List.getElem?_map, List.map_cons, List.getElem?_cons_zero, hv,
            Option.map_some', Option.some.injEq] at h0
          exact h0
        unfold entry_coord at he
        simp only [h1, h2] at he
        cases hx : GEOSCoordSeq_getX_r factory.geos_context entry_cs 0 with
        | none => rw [hx] at he; cases he
        | some x =>
          cases hy : GEOSCoordSeq_getY_r factory.geos_context entry_cs 0 with
          | none => rw [hx, hy] at he; cases he
          | some y =>
            rw [hx, hy] at he
            simp only at he
            cases hz : has_z_of factory with
            | false =>
              simp only [hz, Bool.false_eq_true, if_false, Option.some.injEq] at he
              subst he
              exact ⟨rfl, rfl, (fun h => by cases h)⟩
            | true =>
              simp only [hz, if_true] at he
              cases hzr : GEOSCoordSeq_getZ_r factory.geos_context entry_cs 0 with
              | none => rw [hzr] at he; cases he
              | some z =>
                rw [hzr] at he
                simp only [Option.map_some', Option.some.injEq] at he
                subst he
                exact ⟨rfl, rfl, (fun _ => rfl)⟩

/-- C11 (amended), at a concrete input: with z enabled, the closing coordinate of the
open triangle `(0,0,1), (1,0,2), (1,1,3)` sits at index 3 and has the first point's z. -/
theorem coord_seq_from_array_closing_coord_witness :
    [point_obj 2 0 0 1, point_obj 2 1 0 2, point_obj 2 1 1 3].length *
        dims_of (has_z_of factory_3d) < 2 ^ 32 ∧
      [point_obj 2 0 0 1, point_obj 2 1 0 2, point_obj 2 1 1 3].map
          (entry_coord Converter.points factory_3d) =
        [coord_of 0 0 1, coord_of 1 0 2, coord_of 1 1 3].map some ∧
      xy_ceq (coord_of 0 0 1) (coord_of 1 1 3) = false ∧
      ∃ seq, coord_seq_from_array Converter.points factory_3d
          [point_obj 2 0 0 1, point_obj 2 1 0 2, point_obj 2 1 1 3] true = some seq ∧
        seq.length = 4 ∧
        ∃ c : Coord, seq[3]? = some c ∧ c.x = Double.ofSmall 0 ∧ c.y = Double.ofSmall 0 ∧
          c.z = Double.ofSmall 1 :=
  ⟨by decide, by decide, by decide, by
    have h := coord_seq_from_array_closing_coord Converter.points factory_3d
      [point_obj 2 0 0 1, point_obj 2 1 0 2, point_obj 2 1 1 3]
      [coord_of 0 0 1, coord_of 1 0 2, coord_of 1 1 3] (coord_of 0 0 1) (coord_of 1 1 3)
      (by decide) (by decide) rfl rfl (by decide)
    obtain ⟨seq, hseq⟩ := h.1 (fun _ => rfl)
    obtain ⟨hlen, c, hc, hx, hy, hz, _⟩ := h.2 seq hseq
    exact ⟨seq, hseq, hlen, c, hc, hx, hy, hz (by decide)⟩⟩

end RGeo
